import Mathlib

/-!
Verification development for the SmartFrame canvas-capture and metadata
extraction pipeline (`smartframe_extractor.py`).

The Python source is shallowly embedded: strings are Lean `String`s and the
Python string helpers (`strip`, `replace`, `split`, `splitlines`,
`startswith`, substring membership, `lower`) are re-implemented here over
`List Char` with Python's semantics (all-occurrence replacement, left-to-right
non-overlapping scanning, empty-piece-preserving splits).  Stateful browser
objects (DOM roots, message events) become explicit data; fallible browser
calls become `Option` values.
-/

namespace SmartFrame

/-! ## Python-flavoured string primitives -/

/-- Whitespace test used by Python's `str.strip` (core ASCII cases). -/
def isWS (c : Char) : Bool := c.isWhitespace

/-- `str.strip()` on character lists: drop whitespace at both ends. -/
def stripChars (l : List Char) : List Char :=
  ((l.dropWhile isWS).reverse.dropWhile isWS).reverse

/-- Python `s.strip()`. -/
def pyStrip (s : String) : String := String.mk (stripChars s.toList)

/-- Python `s.startswith(p)`. -/
def pyStartswith (s p : String) : Bool :=
  decide (s.toList.take p.toList.length = p.toList)

/-- Python `str.replace` scanning, fuelled so that the recursion is
structural (the fuel is always at least the list length, so it never runs
out): replace every non-overlapping occurrence of `pat` (nonempty) scanning
left to right. -/
def replaceGo (pat rep : List Char) : Nat → List Char → List Char
  | _, [] => []
  | 0, l => l
  | fuel + 1, c :: rest =>
    if pat ≠ [] ∧ (c :: rest).take pat.length = pat then
      rep ++ replaceGo pat rep fuel ((c :: rest).drop pat.length)
    else
      c :: replaceGo pat rep fuel rest

/-- Python `str.replace` on character lists. -/
def replaceChars (pat rep l : List Char) : List Char :=
  replaceGo pat rep l.length l

/-- Python `s.replace(pat, rep)` (the source never calls it with an empty
pattern). -/
def pyReplace (s pat rep : String) : String :=
  String.mk (replaceChars pat.toList rep.toList s.toList)

/-- Python `str.split(sep)` scanning (same fuel discipline as `replaceGo`):
nonempty `sep`, empty pieces kept. -/
def splitGo (sep : List Char) : Nat → List Char → List (List Char)
  | _, [] => [[]]
  | 0, l => [l]
  | fuel + 1, c :: rest =>
    if sep ≠ [] ∧ (c :: rest).take sep.length = sep then
      [] :: splitGo sep fuel ((c :: rest).drop sep.length)
    else
      match splitGo sep fuel rest with
      | [] => [[c]]
      | h :: t => (c :: h) :: t

/-- Python `str.split(sep)` on character lists. -/
def splitChars (sep l : List Char) : List (List Char) :=
  splitGo sep l.length l

/-- Python `s.split(sep)`. -/
def pySplit (s sep : String) : List String :=
  (splitChars sep.toList s.toList).map String.mk

/-- Python `s.splitlines()` on the line boundaries the source can produce
(`\n`, `\r`, `\r\n`); no trailing empty line. -/
def splitlinesChars : List Char → List Char → List String
  | acc, [] => if acc.isEmpty then [] else [String.mk acc.reverse]
  | acc, '\r' :: '\n' :: rest => String.mk acc.reverse :: splitlinesChars [] rest
  | acc, '\n' :: rest => String.mk acc.reverse :: splitlinesChars [] rest
  | acc, '\r' :: rest => String.mk acc.reverse :: splitlinesChars [] rest
  | acc, c :: rest => splitlinesChars (c :: acc) rest

/-- Python `s.splitlines()`. -/
def pySplitlines (s : String) : List String := splitlinesChars [] s.toList

/-- Python `s.split()` (no separator): whitespace-run splitting, no empties. -/
def wordsChars : List Char → List Char → List String
  | acc, [] => if acc.isEmpty then [] else [String.mk acc.reverse]
  | acc, c :: rest =>
    if isWS c then
      if acc.isEmpty then wordsChars [] rest
      else String.mk acc.reverse :: wordsChars [] rest
    else wordsChars (c :: acc) rest

/-- Python `s.split()`. -/
def pySplitWS (s : String) : List String := wordsChars [] s.toList

/-- Python `sep.join(parts)`. -/
def joinStr (sep : String) : List String → String
  | [] => ""
  | [x] => x
  | x :: y :: rest => x ++ sep ++ joinStr sep (y :: rest)

/-- Python `needle in hay` (substring membership) on character lists. -/
def subInChars (needle : List Char) : List Char → Bool
  | [] => needle.isEmpty
  | c :: rest =>
    decide ((c :: rest).take needle.length = needle) || subInChars needle rest

/-- Python `needle in hay`. -/
def pyIn (needle hay : String) : Bool := subInChars needle.toList hay.toList

/-- Python `s.lower()` (ASCII). -/
def pyLower (s : String) : String := String.mk (s.toList.map Char.toLower)

/-- Python truthiness of an optional string: `None` and `""` are falsy. -/
def truthy : Option String → Bool
  | none => false
  | some s => s ≠ ""

/-- Python `x or y` where `x` is an optional string and `y` a string. -/
def pyOrStr (x : Option String) (y : String) : Option String :=
  if truthy x then x else some y

/-! ## Canvas capture state machine (`BACKGROUND_JS_CONTENT`) -/

/-- A canvas element as the privileged search distinguishes them: whether its
class list matches `.stage` and whether it has explicit `width`/`height`
attributes. -/
structure Canvas where
  cid : Nat
  stage : Bool
  hasWidthAttr : Bool
  hasHeightAttr : Bool
deriving DecidableEq

/-- The DOM as one `tryFind` attempt sees it: the captured shadow-root
reference (`window.__smartFrameShadowRoot`), the embed's own
`shadowRoot` property, and the full document, each as the document-order
list of canvas elements it contains. -/
structure PageState where
  capturedShadowRoot : Option (List Canvas)
  directShadowRoot : Option (List Canvas)
  documentCanvases : List Canvas

/-- `root.querySelector('canvas.stage')`. -/
def queryStage (root : List Canvas) : Option Canvas := root.find? (·.stage)

/-- `root.querySelector('canvas')`. -/
def queryAnyCanvas (root : List Canvas) : Option Canvas := root.head?

/-- Candidate location 1: the captured shadow root, `.stage` first then any
canvas. -/
def searchCapturedRoot (s : PageState) : Option Canvas :=
  match s.capturedShadowRoot with
  | some root =>
    match queryStage root with
    | some c => some c
    | none => queryAnyCanvas root
  | none => none

/-- Candidate location 2: direct `smartframeEmbed.shadowRoot` access, same
`.stage`-then-any query. -/
def searchDirectRoot (s : PageState) : Option Canvas :=
  match s.directShadowRoot with
  | some root =>
    match queryStage root with
    | some c => some c
    | none => queryAnyCanvas root
  | none => none

/-- Candidate location 3: the full document — `.stage`, else any canvas with
explicit width/height attributes, else any canvas. -/
def searchDocument (s : PageState) : Option Canvas :=
  match queryStage s.documentCanvases with
  | some c => some c
  | none =>
    match s.documentCanvases.find? (fun c => c.hasWidthAttr && c.hasHeightAttr) with
    | some c => some c
    | none => queryAnyCanvas s.documentCanvases

/-- One `tryFind` search attempt: the three candidate locations in order,
each consulted only while `canvas` is still null. -/
def tryFindCanvas (s : PageState) : Option Canvas :=
  match searchCapturedRoot s with
  | some c => some c
  | none =>
    match searchDirectRoot s with
    | some c => some c
    | none => searchDocument s

/-- `findCanvas(maxAttempts = 15, ...)`. -/
def findCanvasMaxAttempts : Nat := 15

/-- `findCanvas(..., delay = 1000)` (milliseconds between attempts). -/
def findCanvasDelayMs : Nat := 1000

/-- The retry loop of `findCanvas`: `stateAt n` is the page state the n-th
attempt (1-based) observes; `a` is the current attempt number and `rem` the
number of retries still allowed (`attempts < maxAttempts` in the source is
`rem > 0` here).  Returns the found canvas (if any) and the number of
`tryFind` invocations performed. -/
def findCanvasGo (stateAt : Nat → PageState) : Nat → Nat → Option Canvas × Nat
  | a, 0 =>
    match tryFindCanvas (stateAt a) with
    | some c => (some c, a)
    | none => (none, a)
  | a, rem + 1 =>
    match tryFindCanvas (stateAt a) with
    | some c => (some c, a)
    | none => findCanvasGo stateAt (a + 1) rem

/-- `findCanvas()` with its default arguments: first attempt is attempt 1,
and `maxAttempts - 1` retries remain after it. -/
def findCanvas (stateAt : Nat → PageState) : Option Canvas × Nat :=
  findCanvasGo stateAt 1 (findCanvasMaxAttempts - 1)

/-- The `CaptureResult` wire variants. -/
inductive CaptureResult where
  | success (dataUrl : String)
  | failure (reason : String)
deriving DecidableEq

/-- The privileged bridge after the embed was resolved: run `findCanvas`,
then the borrowed-`toDataURL` export (modelled as an external function that
either yields a data URL or throws). -/
def bridgeCapture (stateAt : Nat → PageState)
    (toDataURL : Canvas → Except String String) : CaptureResult :=
  match (findCanvas stateAt).1 with
  | none => .failure "Canvas element not found after all retry attempts"
  | some c =>
    match toDataURL c with
    | .ok u => .success u
    | .error e => .failure ("Error calling toDataURL: " ++ e)

/-! ## Metadata extraction pipeline (`extract_smartframe_metadata`) -/

/-- `MIN_CAPTION_LENGTH`. -/
def MIN_CAPTION_LENGTH : Nat := 3

/-- The mutable metadata dictionary: every key is present, `none` models
Python `None`. -/
structure Metadata where
  caption : Option String := none
  date : Option String := none
  credit : Option String := none
  image_id : Option String := none
  image_size : Option String := none
  provider : Option String := none
  location : Option String := none
  city : Option String := none
  country : Option String := none
  photographer : Option String := none
  featuring : Option String := none
  title : Option String := none
  subject : Option String := none
deriving DecidableEq

/-- The all-`None` record `extract_smartframe_metadata` starts from. -/
def emptyMetadata : Metadata := {}

/-- The marker vocabulary, in the source's tuple order. -/
def markers : List String :=
  ["Featuring:", "Where:", "When:", "Credit:", "SmartFrame image ID:", "Image size:"]

/-- Details-paragraph normalization: non-breaking spaces become spaces, then
each ` marker` occurrence is forced onto its own line. -/
def normalizeDetails (t : String) : String :=
  markers.foldl (fun acc mk => pyReplace acc (" " ++ mk) ("\n" ++ mk))
    (pyReplace t " " " ")

/-- The comma-split parts of a `Where:` value:
`[part.strip() for part in value.split(",") if part.strip()]`. -/
def partsOf (v : String) : List String :=
  ((pySplit v ",").map pyStrip).filter (· ≠ "")

/-- The `Where:` branch of the structured details loop (entered when
`location` is falsy): store the location, then derive city/country from the
comma-split parts when city or country is still falsy. -/
def whereApply (v : String) (m : Metadata) : Metadata :=
  if ¬ truthy m.city ∨ ¬ truthy m.country then
    match partsOf v with
    | [] => m
    | [p] => { m with city := pyOrStr m.city p }
    | p :: q :: rest =>
      { m with city := pyOrStr m.city p,
               country := pyOrStr m.country ((q :: rest).getLastD q) }
  else m

/-- Entry of the structured `Where:` branch: store the location first, then
derive city/country. -/
def whereUpdateStructured (line : String) (m : Metadata) : Metadata :=
  whereApply (pyStrip (pyReplace line "Where:" ""))
    { m with location := some (pyStrip (pyReplace line "Where:" "")) }

/-- The marker `if/elif` chain of the structured details loop, applied to a
stripped nonempty line. -/
def structChainM (l : String) (m : Metadata) : Metadata :=
  if pyStartswith l "When:" ∧ ¬ truthy m.date then
    { m with date := some (pyStrip (pyReplace l "When:" "")) }
  else if pyStartswith l "Credit:" ∧ ¬ truthy m.credit then
    { m with credit := some (pyStrip (pyReplace l "Credit:" "")) }
  else if pyStartswith l "Featuring:" ∧ ¬ truthy m.featuring then
    { m with featuring := some (pyStrip (pyReplace l "Featuring:" "")) }
  else if pyStartswith l "Where:" ∧ ¬ truthy m.location then
    whereUpdateStructured l m
  else if pyStartswith l "SmartFrame image ID:" ∧ ¬ truthy m.image_id then
    { m with image_id := some (pyStrip (pyReplace l "SmartFrame image ID:" "")) }
  else if pyStartswith l "Image size:" ∧ ¬ truthy m.image_size then
    { m with image_size := some (pyStrip (pyReplace l "Image size:" "")) }
  else m

/-- State of the structured details loop: collected preface lines, the
`metadata_section_started` flag, and the record. -/
structure DetailState where
  preface : List String
  started : Bool
  m : Metadata

/-- One iteration of the structured details loop on a raw line. -/
def structLineFull (st : DetailState) (raw : String) : DetailState :=
  if pyStrip raw = "" then st
  else if ¬ st.started ∧ ¬ (markers.any (fun mk => pyStartswith (pyStrip raw) mk)) then
    { st with preface := st.preface ++ [pyStrip raw] }
  else
    { preface := st.preface, started := true, m := structChainM (pyStrip raw) st.m }

/-- After the loop: flow the pipe-joined preface into caption (guarding
against duplicate concatenation) and default title/subject to it. -/
def mergePreface (p : String) (m : Metadata) : Metadata :=
  { m with
    caption :=
      match m.caption with
      | some c =>
        if c ≠ "" then (if pyIn p c then some c else some (p ++ " | " ++ c))
        else some p
      | none => some p,
    title := pyOrStr m.title p,
    subject := pyOrStr m.subject p }

/-- Structured provider extraction (`section[0] h1`... `h2` heading):
`none` models a locator failure/timeout. -/
def providerStep (o : Option String) (m : Metadata) : Metadata :=
  match o with
  | none => m
  | some t =>
    if t = "" then m
    else if pyStrip t = "" then m
    else { m with provider := some (pyStrip t) }

/-- Structured caption extraction (`section[1] h1`). -/
def captionStep (o : Option String) (m : Metadata) : Metadata :=
  match o with
  | none => m
  | some t =>
    if t = "" then m
    else if pyStrip t = "" then m
    else { m with caption := some (pyStrip t) }

/-- After the details loop: merge the collected preface, if any. -/
def mergeAfterFold (st : DetailState) : Metadata :=
  if st.preface ≠ [] then mergePreface (joinStr " | " st.preface) st.m
  else st.m

/-- Structured details-paragraph extraction. -/
def detailsStep (o : Option String) (m : Metadata) : Metadata :=
  match o with
  | none => m
  | some t =>
    if t = "" then m
    else mergeAfterFold
      ((pySplitlines (normalizeDetails t)).foldl structLineFull ⟨[], false, m⟩)

/-- The lower-cased-label `if/elif` chain of the nested-section list scan:
fill still-empty fields. -/
def listLabelChain (label value : String) (m : Metadata) : Metadata :=
  if label = "smartframe image id" ∧ ¬ truthy m.image_id then
    { m with image_id := some value }
  else if label = "image size" ∧ ¬ truthy m.image_size then
    { m with image_size := some value }
  else if label = "credit" ∧ ¬ truthy m.credit then
    { m with credit := some value }
  else if label = "photographer" ∧ ¬ truthy m.photographer then
    { m with photographer := some value }
  else if label = "country" ∧ ¬ truthy m.country then
    { m with country := some value }
  else if label = "city" ∧ ¬ truthy m.city then
    { m with city := some value }
  else m

/-- The whitespace-normalized text of a list item (`" ".join(text.split())`
after stripping). -/
def listItemNormalized (item : String) : String :=
  joinStr " " (pySplitWS (pyStrip item))

/-- `label.strip().lower()` of a list item (text before the first colon). -/
def itemLabel (item : String) : String :=
  pyLower (pyStrip ((pySplit (listItemNormalized item) ":").headD ""))

/-- `value.strip()` of a list item (text after the first colon). -/
def itemValue (item : String) : String :=
  pyStrip (joinStr ":" (pySplit (listItemNormalized item) ":").tail)

/-- One list item of the nested-section scan (`section.bg-iy-neutral-100 li`):
whitespace-normalize, split at the first colon, lower-case the label, fill
still-empty fields. -/
def listItemStep (item : String) (m : Metadata) : Metadata :=
  if item = "" then m
  else if pyStrip item = "" then m
  else if pyIn ":" (listItemNormalized item) then
    listLabelChain (itemLabel item) (itemValue item) m
  else m

/-- The list-item scan. -/
def listStep (items : List String) (m : Metadata) : Metadata :=
  items.foldl (fun m item => listItemStep item m) m

/-- What the structured metadata container offers: the provider heading, the
caption heading, the details paragraph (each `none` on a locator failure) and
the nested list items. -/
structure Container where
  providerText : Option String
  captionText : Option String
  detailsText : Option String
  listItems : List String

/-- The whole structured pass over a found container. -/
def structuredPass (c : Container) (m : Metadata) : Metadata :=
  listStep c.listItems
    (detailsStep c.detailsText (captionStep c.captionText (providerStep c.providerText m)))

/-- City/country derivation of the fallback `Where:` branch (the source's
two sequential guarded writes are flattened into nested conditionals: a city
write never touches country, so checking country on the city-updated record
equals checking it on the original). -/
def whereApplyFallback (v : String) (m : Metadata) : Metadata :=
  if partsOf v = [] then m
  else if (partsOf v).length = 1 ∧ ¬ truthy m.city then
    { m with city := some ((partsOf v).headD "") }
  else if ¬ truthy m.city then
    if ¬ truthy m.country then
      { m with city := some ((partsOf v).headD ""),
               country := some ((partsOf v).getLastD "") }
    else { m with city := some ((partsOf v).headD "") }
  else
    if ¬ truthy m.country then { m with country := some ((partsOf v).getLastD "") }
    else m

/-- The `Where:` branch of the fallback loop. -/
def whereUpdateFallback (line : String) (m : Metadata) : Metadata :=
  whereApplyFallback (pyStrip (pyReplace line "Where:" ""))
    { m with location := some (pyStrip (pyReplace line "Where:" "")) }

/-- The fallback marker `if/elif` chain, applied to a stripped nonempty
body line. -/
def fallbackChain (line : String) (m : Metadata) : Metadata :=
  if ¬ truthy m.date ∧ pyStartswith line "When:" then
    { m with date := some (pyStrip (pyReplace line "When:" "")) }
  else if ¬ truthy m.credit ∧ pyStartswith line "Credit:" then
    { m with credit := some (pyStrip (pyReplace line "Credit:" "")) }
  else if ¬ truthy m.featuring ∧ pyStartswith line "Featuring:" then
    { m with featuring := some (pyStrip (pyReplace line "Featuring:" "")) }
  else if ¬ truthy m.location ∧ pyStartswith line "Where:" then
    whereUpdateFallback line m
  else if ¬ truthy m.image_id ∧ pyIn "SmartFrame image ID:" line then
    { m with image_id := some (pyStrip ((pySplit line "SmartFrame image ID:").getLastD "")) }
  else if ¬ truthy m.image_size ∧ pyIn "Image size:" line then
    { m with image_size := some (pyStrip ((pySplit line "Image size:").getLastD "")) }
  else if ¬ truthy m.photographer ∧ pyStartswith line "Photographer:" then
    { m with photographer := some (pyStrip (pyReplace line "Photographer:" "")) }
  else if ¬ truthy m.country ∧ pyStartswith line "Country:" then
    { m with country := some (pyStrip (pyReplace line "Country:" "")) }
  else if ¬ truthy m.city ∧ pyStartswith line "City:" then
    { m with city := some (pyStrip (pyReplace line "City:" "")) }
  else m

/-- One iteration of the fallback marker loop on a raw body line. -/
def fallbackLineStep (raw : String) (m : Metadata) : Metadata :=
  if pyStrip raw = "" then m else fallbackChain (pyStrip raw) m

/-- The fallback caption heuristic: find a body line whose stripped text
equals the provider, and take the next line as caption when it is nonempty,
not marker-led, and longer than `MIN_CAPTION_LENGTH`; keep scanning
otherwise. -/
def capSearch (prov : String) : List String → Metadata → Metadata
  | [], m => m
  | [_], m => m
  | x :: y :: rest, m =>
    if pyStrip x = prov then
      if pyStrip y ≠ "" ∧ ¬ pyStartswith (pyStrip y) "When:" ∧
          ¬ pyStartswith (pyStrip y) "Credit:" ∧
          (pyStrip y).length > MIN_CAPTION_LENGTH then
        { m with caption := some (pyStrip y) }
      else capSearch prov (y :: rest) m
    else capSearch prov (y :: rest) m

/-- The caption heuristic entry: only when caption is falsy and provider is
truthy. -/
def captionHeuristic (lines : List String) (m : Metadata) : Metadata :=
  if ¬ truthy m.caption ∧ truthy m.provider then
    match m.provider with
    | some prov => capSearch prov lines m
    | none => m
  else m

/-- Fallback epilogue: title and subject default to the caption when unset
(the source's two sequential guarded writes are flattened as in
`whereApplyFallback`). -/
def defaultTitleSubject (m : Metadata) : Metadata :=
  if truthy m.caption then
    if ¬ truthy m.title then
      if ¬ truthy m.subject then { m with title := m.caption, subject := m.caption }
      else { m with title := m.caption }
    else
      if ¬ truthy m.subject then { m with subject := m.caption }
      else m
  else m

/-- The fallback pass before its title/subject defaulting epilogue: the
marker loop over body lines, then the caption heuristic. -/
def fallbackCore (body : String) (m : Metadata) : Metadata :=
  captionHeuristic (pySplit body "\n")
    ((pySplit body "\n").foldl (fun m raw => fallbackLineStep raw m) m)

/-- The whole fallback pass over the visible body text. -/
def fallbackPass (body : String) (m : Metadata) : Metadata :=
  defaultTitleSubject (fallbackCore body m)

/-- A loaded page as `extract_smartframe_metadata` reads it: whether the URL
contains `smartframe.com`, the structured container (if its locator count is
positive), and the body inner-text (`none` models a raised error). -/
structure PageModel where
  urlHasSmartframe : Bool
  container : Option Container
  bodyText : Option String

/-- The record after the structured pass (empty when the URL is not a
SmartFrame page or no container is found). -/
def structuredResult (page : PageModel) : Metadata :=
  if ¬ page.urlHasSmartframe then emptyMetadata
  else
    match page.container with
    | some c => structuredPass c emptyMetadata
    | none => emptyMetadata

/-- The fallback gate: `missing_fields` is nonempty iff one of the six gate
fields is falsy. -/
def anyMissing (m : Metadata) : Bool :=
  !truthy m.provider || !truthy m.caption || !truthy m.date ||
  !truthy m.credit || !truthy m.image_id || !truthy m.image_size

/-- `extract_smartframe_metadata`. -/
def extract_smartframe_metadata (page : PageModel) : Metadata :=
  if ¬ page.urlHasSmartframe then emptyMetadata
  else if anyMissing (structuredResult page) then
    match page.bodyText with
    | some body => fallbackPass body (structuredResult page)
    | none => structuredResult page
  else structuredResult page

/-! ## Per-field transfer functions

Characterizations of what one structured pass does to each field, used to
prove the pass idempotent.  These are proof-side views of the definitions
above, not separate translations of the source. -/

/-- One guarded first-writer write. -/
def wStep (d : Option String) : Option String → Option String
  | none => d
  | some v => if truthy d then d else some v

/-- A sequence of guarded first-writer writes. -/
def applyW (ws : List String) (d : Option String) : Option String :=
  ws.foldl (fun d v => if truthy d then d else some v) d

/-- The marker value a raw details line offers (after stripping). -/
def lineVal (marker raw : String) : Option String :=
  if pyStrip raw ≠ "" ∧ pyStartswith (pyStrip raw) marker = true then
    some (pyStrip (pyReplace (pyStrip raw) marker ""))
  else none

/-- All values a details paragraph offers for one marker, in order. -/
def detailVals (marker : String) (o : Option String) : List String :=
  match o with
  | none => []
  | some t =>
    if t = "" then []
    else (pySplitlines (normalizeDetails t)).filterMap (lineVal marker)

/-- The location/city/country slice of the record. -/
structure LocCK where
  loc : Option String
  city : Option String
  country : Option String
deriving DecidableEq

def tripleOf (m : Metadata) : LocCK := ⟨m.location, m.city, m.country⟩

/-- What one `Where:` value does to the location/city/country slice. -/
def whereVStep (t : LocCK) (v : String) : LocCK :=
  if truthy t.loc then t
  else if ¬ truthy t.city ∨ ¬ truthy t.country then
    match partsOf v with
    | [] => ⟨some v, t.city, t.country⟩
    | [p] => ⟨some v, pyOrStr t.city p, t.country⟩
    | p :: q :: rest =>
      ⟨some v, pyOrStr t.city p, pyOrStr t.country ((q :: rest).getLastD q)⟩
  else ⟨some v, t.city, t.country⟩

def applyWhere (ws : List String) (t : LocCK) : LocCK := ws.foldl whereVStep t

/-- The value a list item offers under a given lower-cased label. -/
def itemVal (lbl item : String) : Option String :=
  if item ≠ "" ∧ pyStrip item ≠ "" ∧ pyIn ":" (listItemNormalized item) = true ∧
      itemLabel item = lbl then
    some (itemValue item)
  else none

/-- All values the list items offer under a label, in order. -/
def itemVals (lbl : String) (items : List String) : List String :=
  items.filterMap (itemVal lbl)

/-- The metadata component of one details-loop iteration. -/
def structLineM (raw : String) (m : Metadata) : Metadata :=
  if pyStrip raw = "" then m else structChainM (pyStrip raw) m

/-- The metadata component of the details loop. -/
def foldM (lines : List String) (m : Metadata) : Metadata :=
  lines.foldl (fun m raw => structLineM raw m) m

/-- The preface/started component of one details-loop iteration. -/
def prefLineStep (st : List String × Bool) (raw : String) : List String × Bool :=
  if pyStrip raw = "" then st
  else if ¬ st.2 ∧ ¬ (markers.any (fun mk => pyStartswith (pyStrip raw) mk)) then
    (st.1 ++ [pyStrip raw], st.2)
  else (st.1, true)

/-- The preface lines a details paragraph produces (text-only). -/
def prefaceOf (o : Option String) : List String :=
  match o with
  | none => []
  | some t =>
    if t = "" then []
    else ((pySplitlines (normalizeDetails t)).foldl prefLineStep ([], false)).1

/-- The caption component of the preface merge. -/
def mergeCapFun (p : String) (x : Option String) : Option String :=
  match x with
  | some c =>
    if c ≠ "" then (if pyIn p c then some c else some (p ++ " | " ++ c))
    else some p
  | none => some p

/-- What the details step does to the caption. -/
def capPost (o : Option String) (x : Option String) : Option String :=
  if prefaceOf o ≠ [] then mergeCapFun (joinStr " | " (prefaceOf o)) x else x

/-- What the details step does to title and subject. -/
def orPost (o : Option String) (x : Option String) : Option String :=
  if prefaceOf o ≠ [] then pyOrStr x (joinStr " | " (prefaceOf o)) else x

/-- What a heading step (provider or caption `h1`/`h2` text) does to its
field. -/
def headingT (o x : Option String) : Option String :=
  match o with
  | none => x
  | some t => if t = "" then x else if pyStrip t = "" then x else some (pyStrip t)

/-! ## Date normalization (50-year pivot) -/

/-- Zero-padding to two digits, as Python's `f"{n:02d}"`. -/
def pad2 (n : Nat) : String := if n < 10 then "0" ++ toString n else toString n

/-- The value of a decimal digit character. -/
def charDigit? (c : Char) : Option Nat :=
  if 48 ≤ c.toNat ∧ c.toNat ≤ 57 then some (c.toNat - 48) else none

/-- Decimal value of a digit list. -/
def digitsVal : List Char → Nat → Option Nat
  | [], acc => some acc
  | c :: rest, acc =>
    match charDigit? c with
    | some d => digitsVal rest (acc * 10 + d)
    | none => none

/-- Python `int(s)` restricted to plain digit strings. -/
def pyToNat (s : String) : Option Nat :=
  if s.toList.isEmpty then none else digitsVal s.toList 0

/-- Modelled from the spec: `SmartFrameExtractor._normalize_date` is exercised
by `test_extractor.py` but its definition is not under `src/`; following the
spec's words, a `DD.MM.YY` or `DD.MM.YYYY` date is rewritten to ISO
`YYYY-MM-DD`, a two-digit year below 50 mapping to `20xx` and one of 50 or
above to `19xx`; any other string is returned unchanged. -/
def normalize_date (s : String) : String :=
  match pySplit s "." with
  | [d, mth, y] =>
    match pyToNat d, pyToNat mth, pyToNat y with
    | some dn, some mn, some yn =>
      let yr := if y.length = 2 then (if yn < 50 then 2000 + yn else 1900 + yn) else yn
      toString yr ++ "-" ++ pad2 mn ++ "-" ++ pad2 dn
    | _, _, _ => s
  | _ => s

/-! ## Field enumeration and record predicates -/

/-- The fixed field set of `MetadataRecord`. -/
inductive Field where
  | caption | date | credit | image_id | image_size | provider | location
  | city | country | photographer | featuring | title | subject
deriving DecidableEq, Fintype

/-- Dictionary lookup `metadata[field]`. -/
def getField (m : Metadata) : Field → Option String
  | .caption => m.caption
  | .date => m.date
  | .credit => m.credit
  | .image_id => m.image_id
  | .image_size => m.image_size
  | .provider => m.provider
  | .location => m.location
  | .city => m.city
  | .country => m.country
  | .photographer => m.photographer
  | .featuring => m.featuring
  | .title => m.title
  | .subject => m.subject

/-- A field value that, when present, is its own `strip`. -/
def TrimmedOpt (o : Option String) : Prop := ∀ s, o = some s → pyStrip s = s

/-- Every field of the record is trimmed when present. -/
def TrimmedRec (m : Metadata) : Prop := ∀ f, TrimmedOpt (getField m f)

/-- First-writer-wins: every truthy (non-empty) field of `m` survives into
`m'` unchanged. -/
def PreservesTruthy (m m' : Metadata) : Prop :=
  ∀ f, truthy (getField m f) = true → getField m' f = getField m f

/-- The spec's claimed per-field invariant: absent, or non-empty and
trimmed. -/
def specFieldOk (o : Option String) : Bool :=
  match o with
  | none => true
  | some s => decide (s ≠ "") && decide (pyStrip s = s)

/-! ## Tag-namespace mapper (`write_metadata_to_image`) -/

/-- The four representations `parse_date_components` derives. -/
structure DateComponents where
  exif_datetime : String
  iptc_date : String
  iptc_time : String
  xmp_datetime : String

/-- The string of a field known to be present (`metadata["x"]`). -/
def optStr (o : Option String) : String := o.getD ""

/-- `re.split(r',| and ', s)` scanning (fuelled like `splitGo`): the
alternation tries `,` first, then ` and `, at each position. -/
def splitFeatGo : Nat → List Char → List (List Char)
  | _, [] => [[]]
  | 0, l => [l]
  | fuel + 1, c :: rest =>
    if c = ',' then [] :: splitFeatGo fuel rest
    else if (c :: rest).take 5 = " and ".toList then
      [] :: splitFeatGo fuel ((c :: rest).drop 5)
    else
      match splitFeatGo fuel rest with
      | [] => [[c]]
      | h :: t => (c :: h) :: t

/-- `[name.strip() for name in re.split(r',| and ', featuring) if name.strip()]`. -/
def featuringParticipants (s : String) : List String :=
  (((splitFeatGo s.toList.length s.toList).map (fun l => pyStrip (String.mk l))).filter
    (· ≠ ""))

def captionBlock (m : Metadata) : List String :=
  if truthy m.caption then
    [ "-IPTC:Caption-Abstract=" ++ optStr m.caption,
      "-XMP:Description=" ++ optStr m.caption,
      "-EXIF:ImageDescription=" ++ optStr m.caption ]
  else []

def titleBlock (m : Metadata) : List String :=
  if truthy m.title then
    [ "-IPTC:ObjectName=" ++ optStr m.title,
      "-IPTC:Headline=" ++ optStr m.title,
      "-XMP:Title=" ++ optStr m.title,
      "-XMP-photoshop:Headline=" ++ optStr m.title,
      "-EXIF:XPTitle=" ++ optStr m.title ]
  else []

def subjectBlock (m : Metadata) : List String :=
  if truthy m.subject then
    [ "-XMP:Subject=" ++ optStr m.subject,
      "-IPTC:Keywords=" ++ optStr m.subject ]
  else []

def creditBlock (m : Metadata) : List String :=
  if truthy m.credit then
    [ "-IPTC:Credit=" ++ optStr m.credit,
      "-IPTC:By-line=" ++ optStr m.credit,
      "-XMP:Credit=" ++ optStr m.credit,
      "-EXIF:Artist=" ++ optStr m.credit,
      "-XMP:Creator=" ++ optStr m.credit ]
  else []

def providerBlock (m : Metadata) : List String :=
  if truthy m.provider then
    [ "-IPTC:Source=" ++ optStr m.provider,
      "-XMP:Source=" ++ optStr m.provider ]
  else []

def dateBlock (parseDC : String → Option DateComponents) (m : Metadata) : List String :=
  if truthy m.date then
    match parseDC (optStr m.date) with
    | some c =>
      [ "-EXIF:DateTimeOriginal=" ++ c.exif_datetime,
        "-EXIF:CreateDate=" ++ c.exif_datetime,
        "-EXIF:DateTimeDigitized=" ++ c.exif_datetime,
        "-IPTC:DateCreated=" ++ c.iptc_date,
        "-IPTC:TimeCreated=" ++ c.iptc_time,
        "-XMP:DateCreated=" ++ c.xmp_datetime,
        "-XMP:DateTimeOriginal=" ++ c.xmp_datetime,
        "-XMP:CreateDate=" ++ c.xmp_datetime,
        "-XMP:MetadataDate=" ++ c.xmp_datetime,
        "-XMP:ModifyDate=" ++ c.xmp_datetime ]
    | none =>
      if pyStrip (optStr m.date) ≠ "" then
        [ "-IPTC:DateCreated=" ++ pyStrip (optStr m.date),
          "-XMP:DateCreated=" ++ pyStrip (optStr m.date) ]
      else []
  else []

def cityBlock (m : Metadata) : List String :=
  if truthy m.city then
    [ "-IPTC:City=" ++ optStr m.city,
      "-XMP-photoshop:City=" ++ optStr m.city ]
  else []

def countryBlock (m : Metadata) : List String :=
  if truthy m.country then
    [ "-IPTC:Country-PrimaryLocationName=" ++ optStr m.country,
      "-XMP-photoshop:Country=" ++ optStr m.country ]
  else []

def locationBlock (m : Metadata) : List String :=
  if truthy m.location then
    [ "-IPTC:Sub-location=" ++ optStr m.location,
      "-XMP-photoshop:Location=" ++ optStr m.location ]
  else []

def photographerBlock (m : Metadata) : List String :=
  if truthy m.photographer then
    [ "-XMP:Contributor=" ++ optStr m.photographer ]
  else []

def featuringBlock (m : Metadata) : List String :=
  if truthy m.featuring then
    (if featuringParticipants (optStr m.featuring) = [] then
        [pyStrip (optStr m.featuring)]
      else featuringParticipants (optStr m.featuring)).map
      (fun person => "-XMP:PersonInImage+=" ++ person)
  else []

def imageIdBlock (m : Metadata) : List String :=
  if truthy m.image_id then
    [ "-XMP:Identifier=" ++ optStr m.image_id,
      "-IPTC:OriginalTransmissionReference=" ++ optStr m.image_id ]
  else []

/-- `location_components` of the comments synthesis. -/
def locationComponents (m : Metadata) : List String :=
  (if truthy m.city then [optStr m.city] else []) ++
  (if truthy m.country then [optStr m.country] else [])

/-- `comments_parts`: the populated fields aggregated for the free-text
comment, skipping size and avoiding duplicates. -/
def commentsParts (m : Metadata) : List String :=
  (if truthy m.caption then ["Caption: " ++ optStr m.caption] else []) ++
  (if truthy m.date then ["Date: " ++ optStr m.date] else []) ++
  (if truthy m.credit then ["Credit: " ++ optStr m.credit] else []) ++
  (if truthy m.photographer ∧ m.photographer ≠ m.credit then
    ["Photographer: " ++ optStr m.photographer] else []) ++
  (if truthy m.image_id then ["Image ID: " ++ optStr m.image_id] else []) ++
  (if truthy m.provider then ["Provider: " ++ optStr m.provider] else []) ++
  (if locationComponents m ≠ [] then
    ["Location: " ++ joinStr ", " (locationComponents m)]
   else if truthy m.location then ["Location: " ++ optStr m.location] else []) ++
  (if truthy m.featuring then ["Featuring: " ++ optStr m.featuring] else []) ++
  (if truthy m.subject ∧ m.subject ≠ m.caption then
    ["Subject: " ++ optStr m.subject] else []) ++
  (if truthy m.title ∧ m.title ≠ m.caption ∧ m.title ≠ m.subject then
    ["Title: " ++ optStr m.title] else [])

def commentsBlock (m : Metadata) : List String :=
  if commentsParts m ≠ [] then
    [ "-EXIF:UserComment=" ++ joinStr " | " (commentsParts m),
      "-XMP:UserComment=" ++ joinStr " | " (commentsParts m) ]
  else []

/-- The field-assignment arguments `write_metadata_to_image` builds between
`-overwrite_original` and the image path, in source order.
`parseDC` abstracts the external `parse_date_components`/dateutil call. -/
def buildExiftoolArgs (parseDC : String → Option DateComponents) (m : Metadata) :
    List String :=
  captionBlock m ++ titleBlock m ++ subjectBlock m ++ creditBlock m ++
  providerBlock m ++ dateBlock parseDC m ++ cityBlock m ++ countryBlock m ++
  locationBlock m ++ photographerBlock m ++ featuringBlock m ++ imageIdBlock m ++
  commentsBlock m

/-- The fixed field list (used for `any(metadata.values())`). -/
def allFields : List Field :=
  [.caption, .date, .credit, .image_id, .image_size, .provider, .location,
   .city, .country, .photographer, .featuring, .title, .subject]

/-- The assignments `write_metadata_to_image` emits: none at all when no
field has a truthy value (the early `return`), else the built arguments. -/
def writeMetadataArgs (parseDC : String → Option DateComponents) (m : Metadata) :
    List String :=
  if allFields.any (fun f => truthy (getField m f)) then buildExiftoolArgs parseDC m
  else []

/-- The tag prefixes the mapper uses for each field. -/
def fieldTags : Field → List String
  | .caption => ["-IPTC:Caption-Abstract=", "-XMP:Description=", "-EXIF:ImageDescription="]
  | .title => ["-IPTC:ObjectName=", "-IPTC:Headline=", "-XMP:Title=",
      "-XMP-photoshop:Headline=", "-EXIF:XPTitle="]
  | .subject => ["-XMP:Subject=", "-IPTC:Keywords="]
  | .credit => ["-IPTC:Credit=", "-IPTC:By-line=", "-XMP:Credit=", "-EXIF:Artist=",
      "-XMP:Creator="]
  | .provider => ["-IPTC:Source=", "-XMP:Source="]
  | .date => ["-EXIF:DateTimeOriginal=", "-EXIF:CreateDate=", "-EXIF:DateTimeDigitized=",
      "-IPTC:DateCreated=", "-IPTC:TimeCreated=", "-XMP:DateCreated=",
      "-XMP:DateTimeOriginal=", "-XMP:CreateDate=", "-XMP:MetadataDate=",
      "-XMP:ModifyDate="]
  | .city => ["-IPTC:City=", "-XMP-photoshop:City="]
  | .country => ["-IPTC:Country-PrimaryLocationName=", "-XMP-photoshop:Country="]
  | .location => ["-IPTC:Sub-location=", "-XMP-photoshop:Location="]
  | .photographer => ["-XMP:Contributor="]
  | .featuring => ["-XMP:PersonInImage+="]
  | .image_id => ["-XMP:Identifier=", "-IPTC:OriginalTransmissionReference="]
  | .image_size => []

/-! ## Content relay message listener (`CONTENT_SCRIPT_JS_CONTENT`) -/

/-- The payload of a `window.postMessage` event as the relay inspects it. -/
structure MessageData where
  type : String
  selector : Option String

/-- A message event: its origin, whether `event.source === window`, and its
data. -/
structure MessageEvent where
  origin : String
  sourceIsSelf : Bool
  data : Option MessageData

/-- The content-relay listener: `some request` means a `getCanvasDataURL`
message is sent to the service worker, `none` means the handler returns
without any action. -/
def contentRelayForward (pageOrigin : String) (e : MessageEvent) :
    Option (String × Option String) :=
  if e.origin ≠ pageOrigin then none
  else if ¬ e.sourceIsSelf then none
  else
    match e.data with
    | some d =>
      if d.type = "GET_CANVAS_DATA" then some ("getCanvasDataURL", d.selector)
      else none
    | none => none

/-! ## Concrete inputs used by witnesses and counterexamples -/

/-- A SmartFrame page whose details paragraph is the bare line `When:`. -/
def bareWhenPage : PageModel := ⟨true, some ⟨none, none, some "When:", []⟩, some ""⟩

/-- A SmartFrame page whose structured pass derives the city `Paris` from
`Where:` while the body text carries a conflicting `City:` marker only the
fallback pass sees. -/
def cityConflictPage : PageModel :=
  ⟨true, some ⟨none, none, some "Where: Paris, France", []⟩, some "City: London"⟩

/-- A SmartFrame page whose structured pass fills all six gate fields but
leaves title and subject unset, while the body text offers fallback-only
markers. -/
def gateClosedPage : PageModel :=
  ⟨true, some ⟨some "P", some "Caption here",
      some "When: 2020 Credit: C SmartFrame image ID: id1 Image size: 2x2", []⟩,
    some "Photographer: Ph\nCity: Lyon\nCountry: FR"⟩

/-- A SmartFrame page where the fallback pass runs (provider is missing) and
the structured pass found a caption. -/
def gateOpenCaptionPage : PageModel :=
  ⟨true, some ⟨none, some "Cap", none, []⟩, some ""⟩

/-- A canvas of class `stage` living in the captured shadow root. -/
def stageCanvas : Canvas := ⟨1, true, false, false⟩

/-- A different canvas living in the document. -/
def otherCanvas : Canvas := ⟨2, false, true, true⟩

/-- A page state with a `.stage` canvas in the captured shadow root and a
different canvas in the document. -/
def prioState : PageState := ⟨some [stageCanvas], none, [otherCanvas]⟩

/-- A page state with no canvas anywhere. -/
def noCanvasState : PageState := ⟨none, none, []⟩

/-- The raw details-paragraph text of the spec's example. -/
def exampleDetailsText : String :=
  "Featuring: Jane Doe Where: Paris, France When: 2021-05-01"

/-! ## General helper lemmas -/

/-- Two strings that disagree on each other's initial segments cannot both be
prefixes of the same string. -/
theorem pyStartswith_excl {l : String} (p q : String)
    (h : p.toList.take q.toList.length ≠ q.toList.take p.toList.length)
    (hq : pyStartswith l q = true) : pyStartswith l p = false := by
  unfold pyStartswith at *
  rw [decide_eq_true_eq] at hq
  rw [decide_eq_false_iff_not]
  intro hp
  apply h
  calc p.toList.take q.toList.length
      = (l.toList.take p.toList.length).take q.toList.length := by rw [hp]
    _ = l.toList.take (min q.toList.length p.toList.length) := by
        rw [List.take_take]
    _ = l.toList.take (min p.toList.length q.toList.length) := by
        rw [Nat.min_comm]
    _ = (l.toList.take q.toList.length).take p.toList.length := by
        rw [List.take_take]
    _ = q.toList.take p.toList.length := by rw [hq]

/-! ## Claim C1: per-attempt candidate-location priority -/

/-- C1.  Each `tryFind` attempt consults the three candidate locations in
strict priority order — captured shadow-root reference, direct `shadowRoot`
access, full document — returning the first non-null result and skipping the
rest; in particular a `.stage` canvas in the captured shadow root is returned
no matter what the other locations contain. -/
theorem canvas_search_priority_order :
    (∀ s c, searchCapturedRoot s = some c → tryFindCanvas s = some c) ∧
    (∀ s c, searchCapturedRoot s = none → searchDirectRoot s = some c →
      tryFindCanvas s = some c) ∧
    (∀ s, searchCapturedRoot s = none → searchDirectRoot s = none →
      tryFindCanvas s = searchDocument s) ∧
    (∀ s root c, s.capturedShadowRoot = some root → queryStage root = some c →
      tryFindCanvas s = some c) := by
  refine ⟨?_, ?_, ?_, ?_⟩
  · intro s c h; simp [tryFindCanvas, h]
  · intro s c h1 h2; simp [tryFindCanvas, h1, h2]
  · intro s h1 h2; simp [tryFindCanvas, h1, h2]
  · intro s root c h1 h2
    have : searchCapturedRoot s = some c := by
      simp [searchCapturedRoot, h1, h2]
    simp [tryFindCanvas, this]

/-- Witness for C1 at a concrete page state: the captured shadow root's
`.stage` canvas wins over the document canvas. -/
theorem canvas_search_priority_order_witness :
    tryFindCanvas prioState = some stageCanvas :=
  canvas_search_priority_order.2.2.2 prioState [stageCanvas] stageCanvas rfl rfl

/-! ## Claim C2: bounded retry loop -/

/-- The attempt counter of the retry loop stays within `a + rem`. -/
theorem findCanvasGo_count_le (stateAt : Nat → PageState) :
    ∀ rem a, (findCanvasGo stateAt a rem).2 ≤ a + rem := by
  intro rem
  induction rem with
  | zero =>
    intro a
    simp only [findCanvasGo]
    cases htf : tryFindCanvas (stateAt a) <;> simp
  | succ r ih =>
    intro a
    simp only [findCanvasGo]
    cases htf : tryFindCanvas (stateAt a) with
    | none =>
      have := ih (a + 1)
      simp only []
      omega
    | some c => simp

/-- If every attempt in the window fails, the loop exhausts all its
attempts and finds nothing. -/
theorem findCanvasGo_all_none (stateAt : Nat → PageState) :
    ∀ rem a, (∀ n, a ≤ n → n ≤ a + rem → tryFindCanvas (stateAt n) = none) →
      findCanvasGo stateAt a rem = (none, a + rem) := by
  intro rem
  induction rem with
  | zero =>
    intro a h
    simp only [findCanvasGo]
    rw [h a (Nat.le_refl a) (by omega)]
    simp
  | succ r ih =>
    intro a h
    simp only [findCanvasGo]
    rw [h a (Nat.le_refl a) (by omega)]
    simp only []
    rw [ih (a + 1) (fun n h1 h2 => h n (by omega) (by omega))]
    have : a + 1 + r = a + (r + 1) := by omega
    rw [this]

/-- The loop's outcome depends only on the attempts inside its window: page
states beyond the attempt budget are never consulted. -/
theorem findCanvasGo_window (stateAt stateAt' : Nat → PageState) :
    ∀ rem a, (∀ n, a ≤ n → n ≤ a + rem →
        tryFindCanvas (stateAt n) = tryFindCanvas (stateAt' n)) →
      findCanvasGo stateAt a rem = findCanvasGo stateAt' a rem := by
  intro rem
  induction rem with
  | zero =>
    intro a h
    simp only [findCanvasGo]
    rw [h a (Nat.le_refl a) (by omega)]
  | succ r ih =>
    intro a h
    simp only [findCanvasGo]
    rw [h a (Nat.le_refl a) (by omega)]
    cases tryFindCanvas (stateAt' a) with
    | some c => rfl
    | none =>
      simp only []
      exact ih (a + 1) (fun n h1 h2 => h n (by omega) (by omega))

/-- Counterexample to C2 as stated: when no attempt ever finds a canvas the
bridge's failure reason is the source string
`"Canvas element not found after all retry attempts"`, not the claimed
`"canvas not found after all retries"`. -/
theorem capture_retry_reason_counterexample :
    bridgeCapture (fun _ => noCanvasState) (fun _ => .error "never called") =
      .failure "Canvas element not found after all retry attempts" ∧
    CaptureResult.failure "Canvas element not found after all retry attempts" ≠
      .failure "canvas not found after all retries" := by
  constructor
  · rfl
  · decide

/-- C2 (amended: the source failure reason is
`"Canvas element not found after all retry attempts"`).  For every schedule
of page states the loop performs at most 15 search attempts, 1000 ms apart;
if no attempt in that window finds a canvas it performs exactly 15 attempts
and the bridge yields the `failure` variant; and no 16th attempt can matter:
the result ignores states beyond attempt 15. -/
theorem capture_loop_bounded (stateAt : Nat → PageState)
    (toDataURL : Canvas → Except String String) :
    (findCanvas stateAt).2 ≤ 15 ∧ findCanvasDelayMs = 1000 ∧
    ((∀ n, 1 ≤ n → n ≤ 15 → tryFindCanvas (stateAt n) = none) →
      bridgeCapture stateAt toDataURL =
        .failure "Canvas element not found after all retry attempts" ∧
      (findCanvas stateAt).2 = 15) ∧
    (∀ stateAt', (∀ n, 1 ≤ n → n ≤ 15 →
        tryFindCanvas (stateAt n) = tryFindCanvas (stateAt' n)) →
      findCanvas stateAt = findCanvas stateAt') := by
  refine ⟨?_, rfl, ?_, ?_⟩
  · simpa [findCanvas, findCanvasMaxAttempts] using
      findCanvasGo_count_le stateAt 14 1
  · intro h
    have hall : findCanvasGo stateAt 1 14 = (none, 1 + 14) :=
      findCanvasGo_all_none stateAt 14 1 (fun n h1 h2 => h n h1 (by omega))
    constructor
    · simp [bridgeCapture, findCanvas, findCanvasMaxAttempts, hall]
    · simp [findCanvas, findCanvasMaxAttempts, hall]
  · intro stateAt' h
    exact findCanvasGo_window stateAt stateAt' 14 1
      (fun n h1 h2 => h n h1 (by omega))

/-- Witness for C2 (amended) at a concrete schedule: with no canvas anywhere
the loop stops at attempt 15 with the failure variant. -/
theorem capture_loop_bounded_witness :
    bridgeCapture (fun _ => noCanvasState) (fun _ => .error "never called") =
      .failure "Canvas element not found after all retry attempts" ∧
    (findCanvas (fun _ => noCanvasState)).2 = 15 :=
  (capture_loop_bounded (fun _ => noCanvasState)
    (fun _ => .error "never called")).2.2.1 (fun _ _ _ => rfl)

/-! ## Claim C3: relay origin/window validation -/

/-- C3.  A message whose origin differs from the page origin, or whose
source is not the relay's own window, produces no action at all: the relay
never forwards a capture request for it. -/
theorem relay_rejects_foreign_messages (pageOrigin : String) (e : MessageEvent)
    (h : e.origin ≠ pageOrigin ∨ e.sourceIsSelf = false) :
    contentRelayForward pageOrigin e = none := by
  rcases h with h | h
  · simp [contentRelayForward, h]
  · by_cases ho : e.origin = pageOrigin
    · simp [contentRelayForward, ho, h]
    · simp [contentRelayForward, ho]

/-- Witness for C3: a well-formed capture message from an embedded frame
(different source window) is dropped. -/
theorem relay_rejects_foreign_messages_witness :
    contentRelayForward "https://smartframe.com"
      ⟨"https://smartframe.com", false, some ⟨"GET_CANVAS_DATA", some "smartframe-embed"⟩⟩ =
      none :=
  relay_rejects_foreign_messages "https://smartframe.com"
    ⟨"https://smartframe.com", false, some ⟨"GET_CANVAS_DATA", some "smartframe-embed"⟩⟩
    (Or.inr rfl)

/-! ## Claim C5: details-paragraph parsing example and the `Where:` split -/

/-- C5.  The structured pass parses the example details paragraph to
`featuring="Jane Doe"`, `city="Paris"`, `country="France"`,
`date="2021-05-01"`; and in general a `Where:` line's value is split on
commas — one part becomes city, with two or more parts the first becomes
city and the last becomes country. -/
theorem details_paragraph_example :
    ((structuredPass ⟨none, none, some exampleDetailsText, []⟩ emptyMetadata).featuring
        = some "Jane Doe" ∧
     (structuredPass ⟨none, none, some exampleDetailsText, []⟩ emptyMetadata).city
        = some "Paris" ∧
     (structuredPass ⟨none, none, some exampleDetailsText, []⟩ emptyMetadata).country
        = some "France" ∧
     (structuredPass ⟨none, none, some exampleDetailsText, []⟩ emptyMetadata).date
        = some "2021-05-01") ∧
    ∀ l m, pyStartswith l "Where:" = true → truthy m.location = false →
      truthy m.city = false → truthy m.country = false →
      (structChainM l m).location = some (pyStrip (pyReplace l "Where:" "")) ∧
      ∀ parts, parts = partsOf (pyStrip (pyReplace l "Where:" "")) →
        (parts = [] →
          (structChainM l m).city = m.city ∧ (structChainM l m).country = m.country) ∧
        (∀ p, parts = [p] →
          (structChainM l m).city = some p ∧ (structChainM l m).country = m.country) ∧
        (∀ p q rest, parts = p :: q :: rest →
          (structChainM l m).city = some p ∧
          (structChainM l m).country = some ((q :: rest).getLastD q)) := by
  constructor
  · refine ⟨by decide, by decide, by decide, by decide⟩
  · intro l m hW hloc hcity hcountry
    have h1 : pyStartswith l "When:" = false :=
      pyStartswith_excl "When:" "Where:" (by decide) hW
    have h2 : pyStartswith l "Credit:" = false :=
      pyStartswith_excl "Credit:" "Where:" (by decide) hW
    have h3 : pyStartswith l "Featuring:" = false :=
      pyStartswith_excl "Featuring:" "Where:" (by decide) hW
    have hchain : structChainM l m = whereUpdateStructured l m := by
      simp [structChainM, h1, h2, h3, hW, hloc]
    rw [hchain]
    unfold whereUpdateStructured whereApply
    rw [if_pos (by simp [hcity])]
    constructor
    · split <;> simp
    · intro parts hp
      refine ⟨?_, ?_, ?_⟩
      · intro hnil
        rw [← hp, hnil]
        simp
      · intro p hone
        rw [← hp, hone]
        simp [pyOrStr, hcity]
      · intro p q rest htwo
        rw [← hp, htwo]
        simp [pyOrStr, hcity, hcountry]

/-- Witness for C5's general `Where:` rule at a concrete line and record:
one comma part becomes the city, two parts become city and country. -/
theorem details_paragraph_example_witness :
    (structChainM "Where: Berlin" emptyMetadata).location = some "Berlin" ∧
    (structChainM "Where: Berlin" emptyMetadata).city = some "Berlin" := by
  have h := details_paragraph_example.2 "Where: Berlin" emptyMetadata (by decide) rfl rfl rfl
  refine ⟨?_, ?_⟩
  · rw [h.1]; decide
  · exact ((h.2 _ rfl).2.1 "Berlin" (by decide)).1

/-! ## Claim C8: two-digit-year pivot in date normalization -/

/-- C8 (spec-modelled).  `"15.11.07"` normalizes to `2007-11-15`, and for
every two-digit year a value below 50 resolves to `20xx` while 50 or above
resolves to `19xx`. -/
theorem two_digit_year_pivot :
    normalize_date "15.11.07" = "2007-11-15" ∧
    ∀ y : Nat, y < 100 →
      normalize_date ("15.11." ++ pad2 y) =
        ((if y < 50 then "20" else "19") ++ pad2 y) ++ "-11-15" := by
  constructor
  · decide
  · decide

/-- Witness for C8's general pivot rule at year 55 (maps to 1955). -/
theorem two_digit_year_pivot_witness :
    (55 : Nat) < 100 ∧ normalize_date ("15.11." ++ pad2 55) = "1955-11-15" :=
  ⟨by decide, two_digit_year_pivot.2 55 (by decide)⟩

/-! ## Lemmas about `pyStrip` -/

theorem head_dropWhile_not {p : Char → Bool} {l : List Char} {c : Char}
    (h : (l.dropWhile p).head? = some c) : p c = false := by
  induction l with
  | nil => simp [List.dropWhile] at h
  | cons a rest ih =>
    rw [List.dropWhile_cons] at h
    by_cases hp : p a = true
    · rw [if_pos hp] at h; exact ih h
    · rw [if_neg hp] at h
      simp only [List.head?_cons, Option.some.injEq] at h
      subst h
      simpa using hp

theorem dropWhile_eq_self_of_head {p : Char → Bool} {l : List Char}
    (h : ∀ c, l.head? = some c → p c = false) : l.dropWhile p = l := by
  cases l with
  | nil => rfl
  | cons a rest => simp [List.dropWhile_cons, h a rfl]

/-- Right trim used by `stripChars`. -/
theorem trimRight_head? {l : List Char} {c : Char}
    (h : ((l.reverse.dropWhile isWS).reverse).head? = some c) :
    l.head? = some c := by
  obtain ⟨t, ht⟩ := List.dropWhile_suffix (l := l.reverse) isWS
  have hl : l = (l.reverse.dropWhile isWS).reverse ++ t.reverse := by
    have h2 := congrArg List.reverse ht
    simpa [List.reverse_append] using h2.symm
  rw [hl, List.head?_append, h]
  rfl

theorem strip_head_not_ws {l : List Char} {c : Char}
    (h : (stripChars l).head? = some c) : isWS c = false :=
  head_dropWhile_not (trimRight_head? h)

theorem strip_getLast_not_ws {l : List Char} {c : Char}
    (h : (stripChars l).getLast? = some c) : isWS c = false := by
  have h2 : ((l.dropWhile isWS).reverse.dropWhile isWS).head? = some c := by
    rw [← List.getLast?_reverse]
    exact h
  exact head_dropWhile_not h2

theorem strip_eq_self {l : List Char}
    (hh : ∀ c, l.head? = some c → isWS c = false)
    (hl : ∀ c, l.getLast? = some c → isWS c = false) :
    stripChars l = l := by
  have h1 : l.dropWhile isWS = l := dropWhile_eq_self_of_head hh
  have h2 : l.reverse.dropWhile isWS = l.reverse := by
    apply dropWhile_eq_self_of_head
    intro c hc
    rw [List.head?_reverse] at hc
    exact hl c hc
  rw [stripChars, h1, h2, List.reverse_reverse]

theorem strip_idem (l : List Char) : stripChars (stripChars l) = stripChars l :=
  strip_eq_self (fun _ h => strip_head_not_ws h) (fun _ h => strip_getLast_not_ws h)

theorem strip_self_head {l : List Char} (h : stripChars l = l) :
    ∀ c, l.head? = some c → isWS c = false := by
  intro c hc
  apply strip_head_not_ws (l := l)
  rw [h]
  exact hc

theorem strip_self_last {l : List Char} (h : stripChars l = l) :
    ∀ c, l.getLast? = some c → isWS c = false := by
  intro c hc
  apply strip_getLast_not_ws (l := l)
  rw [h]
  exact hc

theorem toList_mk (l : List Char) : (String.mk l).toList = l := rfl

theorem string_toList_inj {s t : String} (h : s.toList = t.toList) : s = t := by
  cases s; cases t; exact congrArg String.mk h

theorem pyStrip_eq_iff {s : String} : pyStrip s = s ↔ stripChars s.toList = s.toList := by
  constructor
  · intro h
    have := congrArg String.toList h
    simpa [pyStrip] using this
  · intro h
    show String.mk (stripChars s.toList) = s
    exact string_toList_inj (by rw [toList_mk, h])

theorem pyStrip_idem (s : String) : pyStrip (pyStrip s) = pyStrip s := by
  show String.mk (stripChars (stripChars s.toList)) = String.mk (stripChars s.toList)
  rw [strip_idem]

theorem string_ne_empty_iff {s : String} : s ≠ "" ↔ s.toList ≠ [] := by
  constructor
  · intro h hc
    exact h (string_toList_inj (by rw [hc]; rfl))
  · intro h hc
    apply h
    rw [hc]
    rfl

theorem toList_append (a b : String) : (a ++ b).toList = a.toList ++ b.toList := rfl

/-- Concatenating trimmed nonempty strings around any middle is trimmed. -/
theorem strip_append_self {a b : String} (sep : String)
    (ha : pyStrip a = a) (hb : pyStrip b = b) (ha' : a ≠ "") (hb' : b ≠ "") :
    pyStrip (a ++ sep ++ b) = a ++ sep ++ b := by
  rw [pyStrip_eq_iff]
  rw [pyStrip_eq_iff] at ha hb
  rw [string_ne_empty_iff] at ha' hb'
  rw [toList_append, toList_append]
  apply strip_eq_self
  · intro c hc
    cases hA : a.toList with
    | nil => exact absurd hA ha'
    | cons a0 arest =>
      rw [hA] at hc
      simp only [List.cons_append, List.head?_cons, Option.some.injEq] at hc
      subst hc
      exact strip_self_head ha a0 (by rw [hA]; rfl)
  · intro c hc
    rw [List.append_assoc, List.getLast?_append, List.getLast?_append] at hc
    have hbl : b.toList.getLast? = some (b.toList.getLast hb') :=
      List.getLast?_eq_getLast _ _
    rw [hbl] at hc
    have hc2 : some (b.toList.getLast hb') = some c := hc
    injection hc2 with hc3
    subst hc3
    exact strip_self_last hb _ hbl

theorem append_ne_empty_right {a b : String} (hb : b ≠ "") : a ++ b ≠ "" := by
  rw [string_ne_empty_iff] at hb ⊢
  rw [toList_append]
  intro hc
  exact hb (List.append_eq_nil.mp hc).2

/-- A pipe-join of trimmed nonempty parts is trimmed and nonempty. -/
theorem joinStr_trimmed {parts : List String}
    (h : ∀ x ∈ parts, pyStrip x = x ∧ x ≠ "") (hne : parts ≠ []) :
    pyStrip (joinStr " | " parts) = joinStr " | " parts ∧ joinStr " | " parts ≠ "" := by
  induction parts with
  | nil => exact absurd rfl hne
  | cons x rest ih =>
    cases rest with
    | nil => simpa [joinStr] using h x (by simp)
    | cons y t =>
      have hx := h x (by simp)
      have hrest := ih (fun z hz => h z (by simp [hz])) (by simp)
      rw [joinStr]
      constructor
      · exact strip_append_self " | " hx.1 hrest.1 hx.2 hrest.2
      · exact append_ne_empty_right hrest.2

/-! ## The trimmed-field invariant -/

theorem trimmedOpt_none : TrimmedOpt none := fun _ h => by cases h

theorem trimmedOpt_of {v : String} (hv : pyStrip v = v) : TrimmedOpt (some v) := by
  intro s h
  injection h with h
  rw [← h]
  exact hv

theorem trimmedOpt_strip (v : String) : TrimmedOpt (some (pyStrip v)) :=
  trimmedOpt_of (pyStrip_idem v)

theorem TrimmedOpt.pyOr {x : Option String} (hx : TrimmedOpt x) {y : String}
    (hy : pyStrip y = y) : TrimmedOpt (pyOrStr x y) := by
  unfold pyOrStr
  split
  · exact hx
  · exact trimmedOpt_of hy

theorem trimmedRec_mk {m : Metadata}
    (h1 : TrimmedOpt m.caption) (h2 : TrimmedOpt m.date) (h3 : TrimmedOpt m.credit)
    (h4 : TrimmedOpt m.image_id) (h5 : TrimmedOpt m.image_size)
    (h6 : TrimmedOpt m.provider) (h7 : TrimmedOpt m.location)
    (h8 : TrimmedOpt m.city) (h9 : TrimmedOpt m.country)
    (h10 : TrimmedOpt m.photographer) (h11 : TrimmedOpt m.featuring)
    (h12 : TrimmedOpt m.title) (h13 : TrimmedOpt m.subject) : TrimmedRec m := by
  intro f
  cases f with
  | caption => exact h1
  | date => exact h2
  | credit => exact h3
  | image_id => exact h4
  | image_size => exact h5
  | provider => exact h6
  | location => exact h7
  | city => exact h8
  | country => exact h9
  | photographer => exact h10
  | featuring => exact h11
  | title => exact h12
  | subject => exact h13

theorem partsOf_trimmed {v : String} : ∀ x ∈ partsOf v, pyStrip x = x := by
  intro x hx
  unfold partsOf at hx
  rw [List.mem_filter] at hx
  obtain ⟨hx, _⟩ := hx
  rw [List.mem_map] at hx
  obtain ⟨y, _, rfl⟩ := hx
  exact pyStrip_idem y

theorem trimmedOpt_headD (v : String) : TrimmedOpt (some ((partsOf v).headD "")) := by
  apply trimmedOpt_of
  cases hp : partsOf v with
  | nil => rfl
  | cons p rest => exact partsOf_trimmed p (by rw [hp]; simp)

theorem trimmedOpt_getLastD (v : String) :
    TrimmedOpt (some ((partsOf v).getLastD "")) := by
  apply trimmedOpt_of
  cases hp : partsOf v with
  | nil => rfl
  | cons p rest =>
    have hmem : (p :: rest).getLastD "" ∈ partsOf v := by
      rw [hp, List.getLastD_eq_getLast?, List.getLast?_eq_getLast _ (by simp)]
      exact List.getLast_mem _
    exact partsOf_trimmed _ hmem

theorem getLastD_mem_cons (q : String) (rest : List String) :
    (q :: rest).getLastD q ∈ q :: rest := by
  rw [List.getLastD_eq_getLast?, List.getLast?_eq_getLast _ (by simp)]
  exact List.getLast_mem _

theorem whereUpdateStructured_trimmed (line : String) {m : Metadata}
    (h : TrimmedRec m) : TrimmedRec (whereUpdateStructured line m) := by
  unfold whereUpdateStructured whereApply
  have hm1 : TrimmedRec { m with location := some (pyStrip (pyReplace line "Where:" "")) } :=
    trimmedRec_mk (h Field.caption) (h Field.date) (h Field.credit) (h Field.image_id)
      (h Field.image_size) (h Field.provider) (trimmedOpt_strip _) (h Field.city)
      (h Field.country) (h Field.photographer) (h Field.featuring) (h Field.title)
      (h Field.subject)
  split
  · split
    · exact hm1
    · rename_i p hp
      refine trimmedRec_mk (hm1 Field.caption) (hm1 Field.date) (hm1 Field.credit)
        (hm1 Field.image_id) (hm1 Field.image_size) (hm1 Field.provider)
        (hm1 Field.location) ?_ (hm1 Field.country) (hm1 Field.photographer)
        (hm1 Field.featuring) (hm1 Field.title) (hm1 Field.subject)
      exact (hm1 Field.city).pyOr (partsOf_trimmed p (by rw [hp]; simp))
    · rename_i p q rest hp
      refine trimmedRec_mk (hm1 Field.caption) (hm1 Field.date) (hm1 Field.credit)
        (hm1 Field.image_id) (hm1 Field.image_size) (hm1 Field.provider)
        (hm1 Field.location) ?_ ?_ (hm1 Field.photographer)
        (hm1 Field.featuring) (hm1 Field.title) (hm1 Field.subject)
      · exact (hm1 Field.city).pyOr (partsOf_trimmed p (by rw [hp]; simp))
      · refine (hm1 Field.country).pyOr
          (partsOf_trimmed (v := pyStrip (pyReplace line "Where:" "")) _ ?_)
        rw [hp]
        exact List.mem_cons_of_mem p (getLastD_mem_cons q rest)
  · exact hm1

theorem structChainM_trimmed (l : String) {m : Metadata} (h : TrimmedRec m) :
    TrimmedRec (structChainM l m) := by
  unfold structChainM
  split_ifs
  · exact trimmedRec_mk (h Field.caption) (trimmedOpt_strip _) (h Field.credit)
      (h Field.image_id) (h Field.image_size) (h Field.provider) (h Field.location)
      (h Field.city) (h Field.country) (h Field.photographer) (h Field.featuring)
      (h Field.title) (h Field.subject)
  · exact trimmedRec_mk (h Field.caption) (h Field.date) (trimmedOpt_strip _)
      (h Field.image_id) (h Field.image_size) (h Field.provider) (h Field.location)
      (h Field.city) (h Field.country) (h Field.photographer) (h Field.featuring)
      (h Field.title) (h Field.subject)
  · exact trimmedRec_mk (h Field.caption) (h Field.date) (h Field.credit)
      (h Field.image_id) (h Field.image_size) (h Field.provider) (h Field.location)
      (h Field.city) (h Field.country) (h Field.photographer) (trimmedOpt_strip _)
      (h Field.title) (h Field.subject)
  · exact whereUpdateStructured_trimmed l h
  · exact trimmedRec_mk (h Field.caption) (h Field.date) (h Field.credit)
      (trimmedOpt_strip _) (h Field.image_size) (h Field.provider) (h Field.location)
      (h Field.city) (h Field.country) (h Field.photographer) (h Field.featuring)
      (h Field.title) (h Field.subject)
  · exact trimmedRec_mk (h Field.caption) (h Field.date) (h Field.credit)
      (h Field.image_id) (trimmedOpt_strip _) (h Field.provider) (h Field.location)
      (h Field.city) (h Field.country) (h Field.photographer) (h Field.featuring)
      (h Field.title) (h Field.subject)
  · exact h

theorem structLineFull_trimmed (raw : String) {st : DetailState}
    (h : TrimmedRec st.m) : TrimmedRec (structLineFull st raw).m := by
  unfold structLineFull
  split_ifs
  · exact h
  · exact h
  · exact structChainM_trimmed _ h

theorem structFold_trimmed (lines : List String) (st : DetailState)
    (h : TrimmedRec st.m) : TrimmedRec (lines.foldl structLineFull st).m := by
  induction lines generalizing st with
  | nil => exact h
  | cons raw rest ih => exact ih _ (structLineFull_trimmed raw h)

theorem structLineFull_preface (raw : String) {st : DetailState}
    (h : ∀ x ∈ st.preface, pyStrip x = x ∧ x ≠ "") :
    ∀ x ∈ (structLineFull st raw).preface, pyStrip x = x ∧ x ≠ "" := by
  unfold structLineFull
  split_ifs with h1 h2
  · exact h
  · intro x hx
    rw [List.mem_append] at hx
    rcases hx with hx | hx
    · exact h x hx
    · rw [List.mem_singleton] at hx
      subst hx
      exact ⟨pyStrip_idem raw, h1⟩
  · exact h

theorem structFold_preface (lines : List String) (st : DetailState)
    (h : ∀ x ∈ st.preface, pyStrip x = x ∧ x ≠ "") :
    ∀ x ∈ (lines.foldl structLineFull st).preface, pyStrip x = x ∧ x ≠ "" := by
  induction lines generalizing st with
  | nil => exact h
  | cons raw rest ih => exact ih _ (structLineFull_preface raw h)

theorem mergePreface_trimmed {p : String} (hp : pyStrip p = p) (hp' : p ≠ "")
    {m : Metadata} (h : TrimmedRec m) : TrimmedRec (mergePreface p m) := by
  unfold mergePreface
  refine trimmedRec_mk ?_ (h Field.date) (h Field.credit) (h Field.image_id)
    (h Field.image_size) (h Field.provider) (h Field.location) (h Field.city)
    (h Field.country) (h Field.photographer) (h Field.featuring)
    ((h Field.title).pyOr hp) ((h Field.subject).pyOr hp)
  split
  · rename_i c hc
    split_ifs
    · exact trimmedOpt_of (h Field.caption c hc)
    · exact trimmedOpt_of
        (strip_append_self " | " hp (h Field.caption c hc) hp' (by assumption))
    · exact trimmedOpt_of hp
  · exact trimmedOpt_of hp

theorem mergeAfterFold_trimmed {st : DetailState}
    (hpre : ∀ x ∈ st.preface, pyStrip x = x ∧ x ≠ "")
    (h : TrimmedRec st.m) : TrimmedRec (mergeAfterFold st) := by
  unfold mergeAfterFold
  split_ifs with hne
  · obtain ⟨hj, hj'⟩ := joinStr_trimmed hpre hne
    exact mergePreface_trimmed hj hj' h
  · exact h

theorem providerStep_trimmed (o : Option String) {m : Metadata}
    (h : TrimmedRec m) : TrimmedRec (providerStep o m) := by
  unfold providerStep
  split
  · exact h
  · split_ifs
    · exact h
    · exact h
    · exact trimmedRec_mk (h Field.caption) (h Field.date) (h Field.credit)
        (h Field.image_id) (h Field.image_size) (trimmedOpt_strip _) (h Field.location)
        (h Field.city) (h Field.country) (h Field.photographer) (h Field.featuring)
        (h Field.title) (h Field.subject)

theorem captionStep_trimmed (o : Option String) {m : Metadata}
    (h : TrimmedRec m) : TrimmedRec (captionStep o m) := by
  unfold captionStep
  split
  · exact h
  · split_ifs
    · exact h
    · exact h
    · exact trimmedRec_mk (trimmedOpt_strip _) (h Field.date) (h Field.credit)
        (h Field.image_id) (h Field.image_size) (h Field.provider) (h Field.location)
        (h Field.city) (h Field.country) (h Field.photographer) (h Field.featuring)
        (h Field.title) (h Field.subject)

theorem detailsStep_trimmed (o : Option String) {m : Metadata}
    (h : TrimmedRec m) : TrimmedRec (detailsStep o m) := by
  unfold detailsStep
  split
  · exact h
  · split_ifs
    · exact h
    · exact mergeAfterFold_trimmed
        (structFold_preface _ _ (by intro x hx; cases hx))
        (structFold_trimmed _ _ h)

theorem listLabelChain_trimmed (label : String) {value : String}
    (hv : pyStrip value = value) {m : Metadata} (h : TrimmedRec m) :
    TrimmedRec (listLabelChain label value m) := by
  unfold listLabelChain
  split_ifs
  · exact trimmedRec_mk (h Field.caption) (h Field.date) (h Field.credit)
      (trimmedOpt_of hv) (h Field.image_size) (h Field.provider) (h Field.location)
      (h Field.city) (h Field.country) (h Field.photographer) (h Field.featuring)
      (h Field.title) (h Field.subject)
  · exact trimmedRec_mk (h Field.caption) (h Field.date) (h Field.credit)
      (h Field.image_id) (trimmedOpt_of hv) (h Field.provider) (h Field.location)
      (h Field.city) (h Field.country) (h Field.photographer) (h Field.featuring)
      (h Field.title) (h Field.subject)
  · exact trimmedRec_mk (h Field.caption) (h Field.date) (trimmedOpt_of hv)
      (h Field.image_id) (h Field.image_size) (h Field.provider) (h Field.location)
      (h Field.city) (h Field.country) (h Field.photographer) (h Field.featuring)
      (h Field.title) (h Field.subject)
  · exact trimmedRec_mk (h Field.caption) (h Field.date) (h Field.credit)
      (h Field.image_id) (h Field.image_size) (h Field.provider) (h Field.location)
      (h Field.city) (h Field.country) (trimmedOpt_of hv) (h Field.featuring)
      (h Field.title) (h Field.subject)
  · exact trimmedRec_mk (h Field.caption) (h Field.date) (h Field.credit)
      (h Field.image_id) (h Field.image_size) (h Field.provider) (h Field.location)
      (h Field.city) (trimmedOpt_of hv) (h Field.photographer) (h Field.featuring)
      (h Field.title) (h Field.subject)
  · exact trimmedRec_mk (h Field.caption) (h Field.date) (h Field.credit)
      (h Field.image_id) (h Field.image_size) (h Field.provider) (h Field.location)
      (trimmedOpt_of hv) (h Field.country) (h Field.photographer) (h Field.featuring)
      (h Field.title) (h Field.subject)
  · exact h

theorem listItemStep_trimmed (item : String) {m : Metadata} (h : TrimmedRec m) :
    TrimmedRec (listItemStep item m) := by
  unfold listItemStep
  split_ifs
  · exact h
  · exact h
  · exact listLabelChain_trimmed _ (pyStrip_idem _) h
  · exact h

theorem listStep_trimmed (items : List String) {m : Metadata} (h : TrimmedRec m) :
    TrimmedRec (listStep items m) := by
  unfold listStep
  induction items generalizing m with
  | nil => exact h
  | cons item rest ih => exact ih (listItemStep_trimmed item h)

theorem structuredPass_trimmed (c : Container) {m : Metadata} (h : TrimmedRec m) :
    TrimmedRec (structuredPass c m) :=
  listStep_trimmed _ (detailsStep_trimmed _ (captionStep_trimmed _ (providerStep_trimmed _ h)))

theorem whereApplyFallback_trimmed (v : String) {m : Metadata} (h : TrimmedRec m) :
    TrimmedRec (whereApplyFallback v m) := by
  have hcity : TrimmedRec { m with city := some ((partsOf v).headD "") } :=
    trimmedRec_mk (h Field.caption) (h Field.date) (h Field.credit) (h Field.image_id)
      (h Field.image_size) (h Field.provider) (h Field.location) (trimmedOpt_headD v)
      (h Field.country) (h Field.photographer) (h Field.featuring) (h Field.title)
      (h Field.subject)
  unfold whereApplyFallback
  split_ifs <;>
    first
      | exact h
      | exact hcity
      | exact trimmedRec_mk (h Field.caption) (h Field.date) (h Field.credit)
          (h Field.image_id) (h Field.image_size) (h Field.provider) (h Field.location)
          (trimmedOpt_headD v) (trimmedOpt_getLastD v) (h Field.photographer)
          (h Field.featuring) (h Field.title) (h Field.subject)
      | exact trimmedRec_mk (h Field.caption) (h Field.date) (h Field.credit)
          (h Field.image_id) (h Field.image_size) (h Field.provider) (h Field.location)
          (h Field.city) (trimmedOpt_getLastD v) (h Field.photographer) (h Field.featuring)
          (h Field.title) (h Field.subject)

theorem whereUpdateFallback_trimmed (line : String) {m : Metadata}
    (h : TrimmedRec m) : TrimmedRec (whereUpdateFallback line m) := by
  unfold whereUpdateFallback
  apply whereApplyFallback_trimmed
  exact trimmedRec_mk (h Field.caption) (h Field.date) (h Field.credit) (h Field.image_id)
    (h Field.image_size) (h Field.provider) (trimmedOpt_strip _) (h Field.city)
    (h Field.country) (h Field.photographer) (h Field.featuring) (h Field.title)
    (h Field.subject)

theorem fallbackChain_trimmed (line : String) {m : Metadata} (h : TrimmedRec m) :
    TrimmedRec (fallbackChain line m) := by
  unfold fallbackChain
  split_ifs
  · exact trimmedRec_mk (h Field.caption) (trimmedOpt_strip _) (h Field.credit)
      (h Field.image_id) (h Field.image_size) (h Field.provider) (h Field.location)
      (h Field.city) (h Field.country) (h Field.photographer) (h Field.featuring)
      (h Field.title) (h Field.subject)
  · exact trimmedRec_mk (h Field.caption) (h Field.date) (trimmedOpt_strip _)
      (h Field.image_id) (h Field.image_size) (h Field.provider) (h Field.location)
      (h Field.city) (h Field.country) (h Field.photographer) (h Field.featuring)
      (h Field.title) (h Field.subject)
  · exact trimmedRec_mk (h Field.caption) (h Field.date) (h Field.credit)
      (h Field.image_id) (h Field.image_size) (h Field.provider) (h Field.location)
      (h Field.city) (h Field.country) (h Field.photographer) (trimmedOpt_strip _)
      (h Field.title) (h Field.subject)
  · exact whereUpdateFallback_trimmed line h
  · exact trimmedRec_mk (h Field.caption) (h Field.date) (h Field.credit)
      (trimmedOpt_strip _) (h Field.image_size) (h Field.provider) (h Field.location)
      (h Field.city) (h Field.country) (h Field.photographer) (h Field.featuring)
      (h Field.title) (h Field.subject)
  · exact trimmedRec_mk (h Field.caption) (h Field.date) (h Field.credit)
      (h Field.image_id) (trimmedOpt_strip _) (h Field.provider) (h Field.location)
      (h Field.city) (h Field.country) (h Field.photographer) (h Field.featuring)
      (h Field.title) (h Field.subject)
  · exact trimmedRec_mk (h Field.caption) (h Field.date) (h Field.credit)
      (h Field.image_id) (h Field.image_size) (h Field.provider) (h Field.location)
      (h Field.city) (h Field.country) (trimmedOpt_strip _) (h Field.featuring)
      (h Field.title) (h Field.subject)
  · exact trimmedRec_mk (h Field.caption) (h Field.date) (h Field.credit)
      (h Field.image_id) (h Field.image_size) (h Field.provider) (h Field.location)
      (h Field.city) (trimmedOpt_strip _) (h Field.photographer) (h Field.featuring)
      (h Field.title) (h Field.subject)
  · exact trimmedRec_mk (h Field.caption) (h Field.date) (h Field.credit)
      (h Field.image_id) (h Field.image_size) (h Field.provider) (h Field.location)
      (trimmedOpt_strip _) (h Field.country) (h Field.photographer) (h Field.featuring)
      (h Field.title) (h Field.subject)
  · exact h

theorem fallbackLineStep_trimmed (raw : String) {m : Metadata} (h : TrimmedRec m) :
    TrimmedRec (fallbackLineStep raw m) := by
  unfold fallbackLineStep
  split_ifs
  · exact h
  · exact fallbackChain_trimmed _ h

theorem capSearch_trimmed (prov : String) (lines : List String) {m : Metadata}
    (h : TrimmedRec m) : TrimmedRec (capSearch prov lines m) := by
  induction lines generalizing m with
  | nil => exact h
  | cons x rest ih =>
    cases rest with
    | nil => exact h
    | cons y t =>
      unfold capSearch
      split_ifs
      · exact trimmedRec_mk (trimmedOpt_strip _) (h Field.date) (h Field.credit)
          (h Field.image_id) (h Field.image_size) (h Field.provider) (h Field.location)
          (h Field.city) (h Field.country) (h Field.photographer) (h Field.featuring)
          (h Field.title) (h Field.subject)
      · exact ih h
      · exact ih h

theorem captionHeuristic_trimmed (lines : List String) {m : Metadata}
    (h : TrimmedRec m) : TrimmedRec (captionHeuristic lines m) := by
  unfold captionHeuristic
  split_ifs
  · split
    · exact capSearch_trimmed _ _ h
    · exact h
  · exact h

theorem defaultTitleSubject_trimmed {m : Metadata} (h : TrimmedRec m) :
    TrimmedRec (defaultTitleSubject m) := by
  have ht : TrimmedRec { m with title := m.caption } :=
    trimmedRec_mk (h Field.caption) (h Field.date) (h Field.credit) (h Field.image_id)
      (h Field.image_size) (h Field.provider) (h Field.location) (h Field.city)
      (h Field.country) (h Field.photographer) (h Field.featuring) (h Field.caption)
      (h Field.subject)
  unfold defaultTitleSubject
  split_ifs <;>
    first
      | exact h
      | exact ht
      | exact trimmedRec_mk (h Field.caption) (h Field.date) (h Field.credit)
          (h Field.image_id) (h Field.image_size) (h Field.provider) (h Field.location)
          (h Field.city) (h Field.country) (h Field.photographer) (h Field.featuring)
          (h Field.caption) (h Field.caption)
      | exact trimmedRec_mk (h Field.caption) (h Field.date) (h Field.credit)
          (h Field.image_id) (h Field.image_size) (h Field.provider) (h Field.location)
          (h Field.city) (h Field.country) (h Field.photographer) (h Field.featuring)
          (h Field.title) (h Field.caption)

theorem fallbackPass_trimmed (body : String) {m : Metadata} (h : TrimmedRec m) :
    TrimmedRec (fallbackPass body m) := by
  unfold fallbackPass fallbackCore
  apply defaultTitleSubject_trimmed
  apply captionHeuristic_trimmed
  induction pySplit body "\n" generalizing m with
  | nil => exact h
  | cons raw rest ih => exact ih (fallbackLineStep_trimmed raw h)

theorem emptyMetadata_trimmed : TrimmedRec emptyMetadata := by
  intro f
  cases f <;> exact trimmedOpt_none

theorem extract_trimmed (page : PageModel) :
    TrimmedRec (extract_smartframe_metadata page) := by
  have hs : TrimmedRec (structuredResult page) := by
    unfold structuredResult
    split_ifs <;>
      first
        | exact emptyMetadata_trimmed
        | (split <;>
            first
              | exact structuredPass_trimmed _ emptyMetadata_trimmed
              | exact emptyMetadata_trimmed)
  unfold extract_smartframe_metadata
  split_ifs <;>
    first
      | exact emptyMetadata_trimmed
      | exact hs
      | (split <;> first | exact fallbackPass_trimmed _ hs | exact hs)

/-! ## First-writer-wins: the fallback pass never overwrites truthy fields -/

theorem preserves_refl (m : Metadata) : PreservesTruthy m m := fun _ _ => rfl

theorem preserves_trans {m1 m2 m3 : Metadata} (h12 : PreservesTruthy m1 m2)
    (h23 : PreservesTruthy m2 m3) : PreservesTruthy m1 m3 := by
  intro f hf
  have e12 := h12 f hf
  have hf2 : truthy (getField m2 f) = true := by rw [e12]; exact hf
  rw [h23 f hf2, e12]

theorem whereApplyFallback_preserves (v : String) (m : Metadata) :
    PreservesTruthy m (whereApplyFallback v m) := by
  intro f hf
  unfold whereApplyFallback
  split_ifs <;> cases f <;> simp_all [getField]

theorem whereUpdateFallback_preserves_ne_location (line : String) (m : Metadata)
    (f : Field) (hf : truthy (getField m f) = true) (hfl : f ≠ Field.location) :
    getField (whereUpdateFallback line m) f = getField m f := by
  unfold whereUpdateFallback
  have h2 : truthy (getField
      { m with location := some (pyStrip (pyReplace line "Where:" "")) } f) = true := by
    cases f <;> simp_all [getField]
  rw [whereApplyFallback_preserves _ _ f h2]
  cases f <;> simp_all [getField]

theorem preserves_set_date {m : Metadata} {v : Option String}
    (h : ¬ truthy m.date = true) : PreservesTruthy m { m with date := v } := by
  intro f hf
  cases f <;> simp_all [getField]

theorem preserves_set_credit {m : Metadata} {v : Option String}
    (h : ¬ truthy m.credit = true) : PreservesTruthy m { m with credit := v } := by
  intro f hf
  cases f <;> simp_all [getField]

theorem preserves_set_featuring {m : Metadata} {v : Option String}
    (h : ¬ truthy m.featuring = true) : PreservesTruthy m { m with featuring := v } := by
  intro f hf
  cases f <;> simp_all [getField]

theorem preserves_set_image_id {m : Metadata} {v : Option String}
    (h : ¬ truthy m.image_id = true) : PreservesTruthy m { m with image_id := v } := by
  intro f hf
  cases f <;> simp_all [getField]

theorem preserves_set_image_size {m : Metadata} {v : Option String}
    (h : ¬ truthy m.image_size = true) : PreservesTruthy m { m with image_size := v } := by
  intro f hf
  cases f <;> simp_all [getField]

theorem preserves_set_photographer {m : Metadata} {v : Option String}
    (h : ¬ truthy m.photographer = true) :
    PreservesTruthy m { m with photographer := v } := by
  intro f hf
  cases f <;> simp_all [getField]

theorem preserves_set_country {m : Metadata} {v : Option String}
    (h : ¬ truthy m.country = true) : PreservesTruthy m { m with country := v } := by
  intro f hf
  cases f <;> simp_all [getField]

theorem preserves_set_city {m : Metadata} {v : Option String}
    (h : ¬ truthy m.city = true) : PreservesTruthy m { m with city := v } := by
  intro f hf
  cases f <;> simp_all [getField]

theorem fallbackChain_preserves (line : String) (m : Metadata) :
    PreservesTruthy m (fallbackChain line m) := by
  intro f hf
  unfold fallbackChain
  split_ifs with h1 h2 h3 h4 h5 h6 h7 h8 h9
  · exact preserves_set_date h1.1 f hf
  · exact preserves_set_credit h2.1 f hf
  · exact preserves_set_featuring h3.1 f hf
  · by_cases hfl : f = Field.location
    · subst hfl
      simp only [getField] at hf
      exact absurd hf h4.1
    · exact whereUpdateFallback_preserves_ne_location line m f hf hfl
  · exact preserves_set_image_id h5.1 f hf
  · exact preserves_set_image_size h6.1 f hf
  · exact preserves_set_photographer h7.1 f hf
  · exact preserves_set_country h8.1 f hf
  · exact preserves_set_city h9.1 f hf
  · rfl

theorem fallbackLineStep_preserves (raw : String) (m : Metadata) :
    PreservesTruthy m (fallbackLineStep raw m) := by
  intro f hf
  unfold fallbackLineStep
  split_ifs
  · rfl
  · exact fallbackChain_preserves (pyStrip raw) m f hf

theorem capSearch_preserves (prov : String) (lines : List String) (f : Field)
    (hfc : f ≠ Field.caption) :
    ∀ m, getField (capSearch prov lines m) f = getField m f := by
  induction lines with
  | nil => intro m; rfl
  | cons x rest ih =>
    intro m
    cases rest with
    | nil => rfl
    | cons y t =>
      unfold capSearch
      split_ifs
      · cases f <;> simp_all [getField]
      · exact ih m
      · exact ih m

theorem captionHeuristic_preserves (lines : List String) (m : Metadata) :
    PreservesTruthy m (captionHeuristic lines m) := by
  intro f hf
  unfold captionHeuristic
  split_ifs with hc
  · split
    · rename_i prov hprov
      by_cases hfc : f = Field.caption
      · subst hfc
        simp only [getField] at hf
        exact absurd hf (by simpa using hc.1)
      · exact capSearch_preserves prov lines f hfc m
    · rfl
  · rfl

theorem defaultTitleSubject_preserves (m : Metadata) :
    PreservesTruthy m (defaultTitleSubject m) := by
  intro f hf
  unfold defaultTitleSubject
  split_ifs <;> cases f <;> simp_all [getField]

theorem fallbackFold_preserves (lines : List String) (m : Metadata) :
    PreservesTruthy m (lines.foldl (fun m raw => fallbackLineStep raw m) m) := by
  induction lines generalizing m with
  | nil => exact preserves_refl m
  | cons raw rest ih =>
    exact preserves_trans (fallbackLineStep_preserves raw m) (ih _)

theorem fallbackPass_preserves (body : String) (m : Metadata) :
    PreservesTruthy m (fallbackPass body m) := by
  unfold fallbackPass fallbackCore
  exact preserves_trans
    (preserves_trans (fallbackFold_preserves _ m) (captionHeuristic_preserves _ _))
    (defaultTitleSubject_preserves _)

/-! ## Claim C4: the `MetadataRecord` invariant -/

/-- Counterexample to C4 as stated: the details line `When:` makes the
structured pass store the empty string in `date` — a present field that is
neither absent nor non-empty. -/
theorem metadata_record_invariant_counterexample :
    (extract_smartframe_metadata bareWhenPage).date = some "" ∧
    specFieldOk (extract_smartframe_metadata bareWhenPage).date = false := by
  constructor
  · decide
  · decide

/-- C4 (amended: a populated field can also be the empty string — written by
a bare marker line and treated as unset by every later read — so the
invariant is: every present field value is trimmed, and every non-empty field
surviving the structured pass is never overwritten by the fallback pass).
In particular the structured `Where:`-derived city beats a fallback-only
`City:` marker. -/
theorem metadata_record_invariant :
    (∀ page f, TrimmedOpt (getField (extract_smartframe_metadata page) f)) ∧
    (∀ page, PreservesTruthy (structuredResult page) (extract_smartframe_metadata page)) ∧
    (extract_smartframe_metadata cityConflictPage).city = some "Paris" := by
  refine ⟨fun page f => extract_trimmed page f, ?_, by decide⟩
  intro page
  by_cases hu : page.urlHasSmartframe = true
  · unfold extract_smartframe_metadata
    rw [if_neg (by simp [hu])]
    split_ifs with hmiss
    · split
      · exact fallbackPass_preserves _ _
      · exact preserves_refl _
    · exact preserves_refl _
  · have he : structuredResult page = emptyMetadata := by
      unfold structuredResult
      rw [if_pos (by simp [hu])]
    unfold extract_smartframe_metadata
    rw [if_pos (by simp [hu]), he]
    exact preserves_refl _

/-- Witness for C4 (amended) at the city-conflict page: the structured city
survives the fallback pass. -/
theorem metadata_record_invariant_witness :
    getField (extract_smartframe_metadata cityConflictPage) Field.city =
      getField (structuredResult cityConflictPage) Field.city :=
  metadata_record_invariant.2.1 cityConflictPage Field.city (by decide)

/-! ## Claim C10: the six-field fallback gate -/

/-- C10.  The fallback pass runs only when one of the six gate fields
(provider, caption, date, credit, image_id, image_size) is still unset after
the structured pass: when all six are set the whole record is exactly the
structured result, so fallback-only markers (`Photographer:`, `Country:`,
`City:`) in the body are never applied and the caption-to-title/subject
defaulting never runs. -/
theorem fallback_gate_six_fields :
    (∀ page, anyMissing (structuredResult page) = false →
      extract_smartframe_metadata page = structuredResult page) ∧
    ((extract_smartframe_metadata gateClosedPage).photographer = none ∧
     (extract_smartframe_metadata gateClosedPage).city = none ∧
     (extract_smartframe_metadata gateClosedPage).country = none ∧
     (extract_smartframe_metadata gateClosedPage).title = none ∧
     (extract_smartframe_metadata gateClosedPage).subject = none ∧
     (extract_smartframe_metadata gateClosedPage).caption = some "Caption here") := by
  constructor
  · intro page hgate
    unfold extract_smartframe_metadata
    by_cases hu : page.urlHasSmartframe = true
    · rw [if_neg (by simp [hu]), if_neg (by simp [hgate])]
    · rw [if_pos (by simp [hu])]
      unfold structuredResult
      rw [if_pos (by simp [hu])]
  · exact ⟨by decide, by decide, by decide, by decide, by decide, by decide⟩

/-- Witness for C10 at the gate-closed page: the record is exactly the
structured result. -/
theorem fallback_gate_six_fields_witness :
    extract_smartframe_metadata gateClosedPage = structuredResult gateClosedPage :=
  fallback_gate_six_fields.1 gateClosedPage (by decide)

/-! ## Claim C7: title/subject defaulting to the caption -/

/-- Counterexample to C7 as stated: with all six gate fields filled by the
structured pass the fallback epilogue never runs, so the final record has a
caption while title and subject — set by neither pass — stay unset instead
of defaulting to it. -/
theorem title_subject_default_counterexample :
    (extract_smartframe_metadata gateClosedPage).caption = some "Caption here" ∧
    (extract_smartframe_metadata gateClosedPage).title = none ∧
    (extract_smartframe_metadata gateClosedPage).subject = none :=
  ⟨by decide, by decide, by decide⟩

/-- C7 (amended: the defaulting is the fallback pass's epilogue, so it
applies exactly when the fallback pass runs).  Whenever the fallback pass
runs and the record has a caption after the fallback's marker loop and
caption heuristic, title and subject equal that caption if they were not set
by either pass before the defaulting step; the caption itself is unchanged
by the defaulting. -/
theorem title_subject_default (page : PageModel) (body : String)
    (hu : page.urlHasSmartframe = true)
    (hgate : anyMissing (structuredResult page) = true)
    (hbody : page.bodyText = some body) :
    (extract_smartframe_metadata page).caption =
      (fallbackCore body (structuredResult page)).caption ∧
    (truthy (fallbackCore body (structuredResult page)).caption = true →
      (truthy (fallbackCore body (structuredResult page)).title = false →
        (extract_smartframe_metadata page).title =
          (fallbackCore body (structuredResult page)).caption) ∧
      (truthy (fallbackCore body (structuredResult page)).subject = false →
        (extract_smartframe_metadata page).subject =
          (fallbackCore body (structuredResult page)).caption)) := by
  have hx : extract_smartframe_metadata page =
      defaultTitleSubject (fallbackCore body (structuredResult page)) := by
    unfold extract_smartframe_metadata
    rw [if_neg (by simp [hu]), if_pos (by simpa using hgate), hbody]
    rfl
  rw [hx]
  unfold defaultTitleSubject
  refine ⟨?_, ?_⟩
  · split_ifs <;> simp
  · intro hcap
    constructor
    · intro hti
      split_ifs <;> simp_all
    · intro hsu
      split_ifs <;> simp_all

/-- Witness for C7 (amended): with the gate open and a structured caption,
title and subject default to it. -/
theorem title_subject_default_witness :
    (extract_smartframe_metadata gateOpenCaptionPage).title =
      (fallbackCore "" (structuredResult gateOpenCaptionPage)).caption :=
  ((title_subject_default gateOpenCaptionPage "" rfl (by decide) rfl).2
    (by decide)).1 (by decide)

/-! ## Claim C9: the tag mapper emits assignments only for set fields -/

set_option maxHeartbeats 1000000 in
/-- Tags of distinct fields disagree on each other's initial segments. -/
theorem fieldTags_pairwise_ok : ∀ fld fld' : Field, fld ≠ fld' →
    ∀ t ∈ fieldTags fld, ∀ t' ∈ fieldTags fld',
      t.toList.take t'.toList.length ≠ t'.toList.take t.toList.length := by decide

/-- No field tag is compatible with the comment tags. -/
theorem commentTags_ok : ∀ fld : Field, ∀ t ∈ fieldTags fld,
    ∀ t' ∈ ["-EXIF:UserComment=", "-XMP:UserComment="],
      t.toList.take t'.toList.length ≠ t'.toList.take t.toList.length := by decide

/-- A tag-plus-value assignment never starts with an incompatible tag. -/
theorem pyStartswith_append_ne (t t' v : String)
    (h : t.toList.take t'.toList.length ≠ t'.toList.take t.toList.length) :
    pyStartswith (t' ++ v) t = false := by
  apply pyStartswith_excl t t' h
  unfold pyStartswith
  rw [decide_eq_true_eq, toList_append]
  exact List.take_left _ _

theorem mem_captionBlock {m : Metadata} {a : String} (h : a ∈ captionBlock m) :
    truthy m.caption = true ∧ ∃ t ∈ fieldTags Field.caption, ∃ v, a = t ++ v := by
  unfold captionBlock at h
  split at h
  · refine ⟨by assumption, ?_⟩
    simp only [List.mem_cons, List.not_mem_nil, or_false] at h
    rcases h with rfl | rfl | rfl
    · exact ⟨"-IPTC:Caption-Abstract=", by simp [fieldTags], _, rfl⟩
    · exact ⟨"-XMP:Description=", by simp [fieldTags], _, rfl⟩
    · exact ⟨"-EXIF:ImageDescription=", by simp [fieldTags], _, rfl⟩
  · cases h

theorem mem_titleBlock {m : Metadata} {a : String} (h : a ∈ titleBlock m) :
    truthy m.title = true ∧ ∃ t ∈ fieldTags Field.title, ∃ v, a = t ++ v := by
  unfold titleBlock at h
  split at h
  · refine ⟨by assumption, ?_⟩
    simp only [List.mem_cons, List.not_mem_nil, or_false] at h
    rcases h with rfl | rfl | rfl | rfl | rfl
    · exact ⟨"-IPTC:ObjectName=", by simp [fieldTags], _, rfl⟩
    · exact ⟨"-IPTC:Headline=", by simp [fieldTags], _, rfl⟩
    · exact ⟨"-XMP:Title=", by simp [fieldTags], _, rfl⟩
    · exact ⟨"-XMP-photoshop:Headline=", by simp [fieldTags], _, rfl⟩
    · exact ⟨"-EXIF:XPTitle=", by simp [fieldTags], _, rfl⟩
  · cases h

theorem mem_subjectBlock {m : Metadata} {a : String} (h : a ∈ subjectBlock m) :
    truthy m.subject = true ∧ ∃ t ∈ fieldTags Field.subject, ∃ v, a = t ++ v := by
  unfold subjectBlock at h
  split at h
  · refine ⟨by assumption, ?_⟩
    simp only [List.mem_cons, List.not_mem_nil, or_false] at h
    rcases h with rfl | rfl
    · exact ⟨"-XMP:Subject=", by simp [fieldTags], _, rfl⟩
    · exact ⟨"-IPTC:Keywords=", by simp [fieldTags], _, rfl⟩
  · cases h

theorem mem_creditBlock {m : Metadata} {a : String} (h : a ∈ creditBlock m) :
    truthy m.credit = true ∧ ∃ t ∈ fieldTags Field.credit, ∃ v, a = t ++ v := by
  unfold creditBlock at h
  split at h
  · refine ⟨by assumption, ?_⟩
    simp only [List.mem_cons, List.not_mem_nil, or_false] at h
    rcases h with rfl | rfl | rfl | rfl | rfl
    · exact ⟨"-IPTC:Credit=", by simp [fieldTags], _, rfl⟩
    · exact ⟨"-IPTC:By-line=", by simp [fieldTags], _, rfl⟩
    · exact ⟨"-XMP:Credit=", by simp [fieldTags], _, rfl⟩
    · exact ⟨"-EXIF:Artist=", by simp [fieldTags], _, rfl⟩
    · exact ⟨"-XMP:Creator=", by simp [fieldTags], _, rfl⟩
  · cases h

theorem mem_providerBlock {m : Metadata} {a : String} (h : a ∈ providerBlock m) :
    truthy m.provider = true ∧ ∃ t ∈ fieldTags Field.provider, ∃ v, a = t ++ v := by
  unfold providerBlock at h
  split at h
  · refine ⟨by assumption, ?_⟩
    simp only [List.mem_cons, List.not_mem_nil, or_false] at h
    rcases h with rfl | rfl
    · exact ⟨"-IPTC:Source=", by simp [fieldTags], _, rfl⟩
    · exact ⟨"-XMP:Source=", by simp [fieldTags], _, rfl⟩
  · cases h

theorem mem_dateBlock {parseDC : String → Option DateComponents} {m : Metadata}
    {a : String} (h : a ∈ dateBlock parseDC m) :
    truthy m.date = true ∧ ∃ t ∈ fieldTags Field.date, ∃ v, a = t ++ v := by
  unfold dateBlock at h
  split at h
  · refine ⟨by assumption, ?_⟩
    split at h
    · simp only [List.mem_cons, List.not_mem_nil, or_false] at h
      rcases h with rfl | rfl | rfl | rfl | rfl | rfl | rfl | rfl | rfl | rfl
      · exact ⟨"-EXIF:DateTimeOriginal=", by simp [fieldTags], _, rfl⟩
      · exact ⟨"-EXIF:CreateDate=", by simp [fieldTags], _, rfl⟩
      · exact ⟨"-EXIF:DateTimeDigitized=", by simp [fieldTags], _, rfl⟩
      · exact ⟨"-IPTC:DateCreated=", by simp [fieldTags], _, rfl⟩
      · exact ⟨"-IPTC:TimeCreated=", by simp [fieldTags], _, rfl⟩
      · exact ⟨"-XMP:DateCreated=", by simp [fieldTags], _, rfl⟩
      · exact ⟨"-XMP:DateTimeOriginal=", by simp [fieldTags], _, rfl⟩
      · exact ⟨"-XMP:CreateDate=", by simp [fieldTags], _, rfl⟩
      · exact ⟨"-XMP:MetadataDate=", by simp [fieldTags], _, rfl⟩
      · exact ⟨"-XMP:ModifyDate=", by simp [fieldTags], _, rfl⟩
    · split at h
      · simp only [List.mem_cons, List.not_mem_nil, or_false] at h
        rcases h with rfl | rfl
        · exact ⟨"-IPTC:DateCreated=", by simp [fieldTags], _, rfl⟩
        · exact ⟨"-XMP:DateCreated=", by simp [fieldTags], _, rfl⟩
      · cases h
  · cases h

theorem mem_cityBlock {m : Metadata} {a : String} (h : a ∈ cityBlock m) :
    truthy m.city = true ∧ ∃ t ∈ fieldTags Field.city, ∃ v, a = t ++ v := by
  unfold cityBlock at h
  split at h
  · refine ⟨by assumption, ?_⟩
    simp only [List.mem_cons, List.not_mem_nil, or_false] at h
    rcases h with rfl | rfl
    · exact ⟨"-IPTC:City=", by simp [fieldTags], _, rfl⟩
    · exact ⟨"-XMP-photoshop:City=", by simp [fieldTags], _, rfl⟩
  · cases h

theorem mem_countryBlock {m : Metadata} {a : String} (h : a ∈ countryBlock m) :
    truthy m.country = true ∧ ∃ t ∈ fieldTags Field.country, ∃ v, a = t ++ v := by
  unfold countryBlock at h
  split at h
  · refine ⟨by assumption, ?_⟩
    simp only [List.mem_cons, List.not_mem_nil, or_false] at h
    rcases h with rfl | rfl
    · exact ⟨"-IPTC:Country-PrimaryLocationName=", by simp [fieldTags], _, rfl⟩
    · exact ⟨"-XMP-photoshop:Country=", by simp [fieldTags], _, rfl⟩
  · cases h

theorem mem_locationBlock {m : Metadata} {a : String} (h : a ∈ locationBlock m) :
    truthy m.location = true ∧ ∃ t ∈ fieldTags Field.location, ∃ v, a = t ++ v := by
  unfold locationBlock at h
  split at h
  · refine ⟨by assumption, ?_⟩
    simp only [List.mem_cons, List.not_mem_nil, or_false] at h
    rcases h with rfl | rfl
    · exact ⟨"-IPTC:Sub-location=", by simp [fieldTags], _, rfl⟩
    · exact ⟨"-XMP-photoshop:Location=", by simp [fieldTags], _, rfl⟩
  · cases h

theorem mem_photographerBlock {m : Metadata} {a : String}
    (h : a ∈ photographerBlock m) :
    truthy m.photographer = true ∧
      ∃ t ∈ fieldTags Field.photographer, ∃ v, a = t ++ v := by
  unfold photographerBlock at h
  split at h
  · refine ⟨by assumption, ?_⟩
    simp only [List.mem_cons, List.not_mem_nil, or_false] at h
    subst h
    exact ⟨"-XMP:Contributor=", by simp [fieldTags], _, rfl⟩
  · cases h

theorem mem_featuringBlock {m : Metadata} {a : String} (h : a ∈ featuringBlock m) :
    truthy m.featuring = true ∧ ∃ t ∈ fieldTags Field.featuring, ∃ v, a = t ++ v := by
  unfold featuringBlock at h
  split at h
  · refine ⟨by assumption, ?_⟩
    rw [List.mem_map] at h
    obtain ⟨p, _, rfl⟩ := h
    exact ⟨"-XMP:PersonInImage+=", by simp [fieldTags], _, rfl⟩
  · cases h

theorem mem_imageIdBlock {m : Metadata} {a : String} (h : a ∈ imageIdBlock m) :
    truthy m.image_id = true ∧ ∃ t ∈ fieldTags Field.image_id, ∃ v, a = t ++ v := by
  unfold imageIdBlock at h
  split at h
  · refine ⟨by assumption, ?_⟩
    simp only [List.mem_cons, List.not_mem_nil, or_false] at h
    rcases h with rfl | rfl
    · exact ⟨"-XMP:Identifier=", by simp [fieldTags], _, rfl⟩
    · exact ⟨"-IPTC:OriginalTransmissionReference=", by simp [fieldTags], _, rfl⟩
  · cases h

theorem mem_commentsBlock {m : Metadata} {a : String} (h : a ∈ commentsBlock m) :
    (∃ v, a = "-EXIF:UserComment=" ++ v ∨ a = "-XMP:UserComment=" ++ v) ∧
      commentsParts m ≠ [] := by
  unfold commentsBlock at h
  split at h
  · refine ⟨?_, by assumption⟩
    simp only [List.mem_cons, List.not_mem_nil, or_false] at h
    rcases h with rfl | rfl
    · exact ⟨_, Or.inl rfl⟩
    · exact ⟨_, Or.inr rfl⟩
  · cases h

/-- If the comments aggregation is nonempty, some field is truthy. -/
theorem commentsParts_exists_truthy {m : Metadata} (h : commentsParts m ≠ []) :
    ∃ fld, truthy (getField m fld) = true := by
  by_contra hne
  push_neg at hne
  apply h
  have h1 : truthy m.caption = false := by simpa [getField] using hne Field.caption
  have h2 : truthy m.date = false := by simpa [getField] using hne Field.date
  have h3 : truthy m.credit = false := by simpa [getField] using hne Field.credit
  have h4 : truthy m.photographer = false := by
    simpa [getField] using hne Field.photographer
  have h5 : truthy m.image_id = false := by simpa [getField] using hne Field.image_id
  have h6 : truthy m.provider = false := by simpa [getField] using hne Field.provider
  have h7 : truthy m.city = false := by simpa [getField] using hne Field.city
  have h8 : truthy m.country = false := by simpa [getField] using hne Field.country
  have h9 : truthy m.location = false := by simpa [getField] using hne Field.location
  have h10 : truthy m.featuring = false := by simpa [getField] using hne Field.featuring
  have h11 : truthy m.subject = false := by simpa [getField] using hne Field.subject
  have h12 : truthy m.title = false := by simpa [getField] using hne Field.title
  unfold commentsParts locationComponents
  simp [h1, h2, h3, h4, h5, h6, h7, h8, h9, h10, h11, h12]

/-- Decomposition of every built assignment. -/
theorem buildArgs_mem {parseDC : String → Option DateComponents} {m : Metadata}
    {a : String} (h : a ∈ buildExiftoolArgs parseDC m) :
    (∃ fld, truthy (getField m fld) = true ∧ ∃ t ∈ fieldTags fld, ∃ v, a = t ++ v) ∨
    ((∃ v, a = "-EXIF:UserComment=" ++ v ∨ a = "-XMP:UserComment=" ++ v) ∧
      commentsParts m ≠ []) := by
  unfold buildExiftoolArgs at h
  simp only [List.mem_append] at h
  rcases h with
    ((((((((((((h | h) | h) | h) | h) | h) | h) | h) | h) | h) | h) | h) | h)
  · exact Or.inl ⟨Field.caption, (mem_captionBlock h).1, (mem_captionBlock h).2⟩
  · exact Or.inl ⟨Field.title, (mem_titleBlock h).1, (mem_titleBlock h).2⟩
  · exact Or.inl ⟨Field.subject, (mem_subjectBlock h).1, (mem_subjectBlock h).2⟩
  · exact Or.inl ⟨Field.credit, (mem_creditBlock h).1, (mem_creditBlock h).2⟩
  · exact Or.inl ⟨Field.provider, (mem_providerBlock h).1, (mem_providerBlock h).2⟩
  · exact Or.inl ⟨Field.date, (mem_dateBlock h).1, (mem_dateBlock h).2⟩
  · exact Or.inl ⟨Field.city, (mem_cityBlock h).1, (mem_cityBlock h).2⟩
  · exact Or.inl ⟨Field.country, (mem_countryBlock h).1, (mem_countryBlock h).2⟩
  · exact Or.inl ⟨Field.location, (mem_locationBlock h).1, (mem_locationBlock h).2⟩
  · exact Or.inl ⟨Field.photographer, (mem_photographerBlock h).1,
      (mem_photographerBlock h).2⟩
  · exact Or.inl ⟨Field.featuring, (mem_featuringBlock h).1, (mem_featuringBlock h).2⟩
  · exact Or.inl ⟨Field.image_id, (mem_imageIdBlock h).1, (mem_imageIdBlock h).2⟩
  · exact Or.inr (mem_commentsBlock h)

/-- C9.  Every assignment emitted by the mapper corresponds to a populated
field (the comment aggregation requiring at least one populated field), and
no assignment with an unset field's tag is ever emitted. -/
theorem mapper_emits_only_set_fields :
    (∀ (parseDC : String → Option DateComponents) (m : Metadata) (a : String),
      a ∈ writeMetadataArgs parseDC m →
      (∃ fld, truthy (getField m fld) = true ∧ ∃ t ∈ fieldTags fld, ∃ v, a = t ++ v) ∨
      ((∃ v, a = "-EXIF:UserComment=" ++ v ∨ a = "-XMP:UserComment=" ++ v) ∧
        ∃ fld, truthy (getField m fld) = true)) ∧
    (∀ (parseDC : String → Option DateComponents) (m : Metadata) (fld : Field),
      truthy (getField m fld) = false →
      ∀ a ∈ writeMetadataArgs parseDC m, ∀ t ∈ fieldTags fld,
        pyStartswith a t = false) := by
  have hw : ∀ (parseDC : String → Option DateComponents) (m : Metadata) a,
      a ∈ writeMetadataArgs parseDC m → a ∈ buildExiftoolArgs parseDC m := by
    intro parseDC m a h
    unfold writeMetadataArgs at h
    split at h
    · exact h
    · cases h
  constructor
  · intro parseDC m a ha
    rcases buildArgs_mem (hw _ _ _ ha) with ⟨fld, hfld, ht⟩ | ⟨hv, hcp⟩
    · exact Or.inl ⟨fld, hfld, ht⟩
    · exact Or.inr ⟨hv, commentsParts_exists_truthy hcp⟩
  · intro parseDC m fld hfld a ha t ht
    rcases buildArgs_mem (hw _ _ _ ha) with ⟨fld', hfld', t', ht', v, rfl⟩ | ⟨⟨v, hv⟩, _⟩
    · have hne : fld ≠ fld' := by
        intro he
        subst he
        rw [hfld] at hfld'
        cases hfld'
      exact pyStartswith_append_ne t t' v (fieldTags_pairwise_ok fld fld' hne t ht t' ht')
    · rcases hv with rfl | rfl
      · exact pyStartswith_append_ne t "-EXIF:UserComment=" v
          (commentTags_ok fld t ht _ (by simp))
      · exact pyStartswith_append_ne t "-XMP:UserComment=" v
          (commentTags_ok fld t ht _ (by simp))

/-- Witness for C9 at a caption-only record: its one emitted caption
assignment does not carry a date tag. -/
theorem mapper_emits_only_set_fields_witness :
    pyStartswith "-IPTC:Caption-Abstract=hi" "-EXIF:DateTimeOriginal=" = false :=
  mapper_emits_only_set_fields.2 (fun _ => none) { caption := some "hi" } Field.date
    (by decide) "-IPTC:Caption-Abstract=hi" (by decide) "-EXIF:DateTimeOriginal="
    (by decide)

/-! ## Claim C6: idempotence of the structured pass — guarded-write algebra -/

theorem applyW_cons (w : String) (ws : List String) (d : Option String) :
    applyW (w :: ws) d = applyW ws (if truthy d then d else some w) := rfl

theorem applyW_truthy {d : Option String} (hd : truthy d = true) (ws : List String) :
    applyW ws d = d := by
  induction ws with
  | nil => rfl
  | cons w rest ih => rw [applyW_cons, if_pos hd]; exact ih

theorem applyW_falsy {ws : List String} {d : Option String}
    (h : truthy (applyW ws d) = false) :
    (∀ w ∈ ws, w = "") ∧ truthy d = false := by
  induction ws generalizing d with
  | nil => exact ⟨by simp, h⟩
  | cons w rest ih =>
    rw [applyW_cons] at h
    by_cases hd : truthy d = true
    · rw [if_pos hd, applyW_truthy hd] at h
      exact absurd h (by simp [hd])
    · rw [if_neg hd] at h
      have hih := ih h
      have hw : w = "" := by
        have h2 := hih.2
        simpa [truthy] using h2
      refine ⟨?_, by simpa using hd⟩
      intro x hx
      rcases List.mem_cons.mp hx with rfl | hx
      · exact hw
      · exact hih.1 x hx

theorem applyW_allEmpty {ws : List String} (hws : ∀ w ∈ ws, w = "")
    {d : Option String} (hd : truthy d = false) :
    applyW ws d = if ws = [] then d else some "" := by
  induction ws generalizing d with
  | nil => rfl
  | cons w rest ih =>
    have hw : w = "" := hws w (by simp)
    subst hw
    rw [applyW_cons, if_neg (by simp [hd])]
    rw [ih (fun x hx => hws x (by simp [hx])) (by simp [truthy])]
    simp

theorem applyW_idem (ws : List String) (d : Option String) :
    applyW ws (applyW ws d) = applyW ws d := by
  by_cases ht : truthy (applyW ws d) = true
  · exact applyW_truthy ht ws
  · have ht' : truthy (applyW ws d) = false := by simpa using ht
    obtain ⟨hws, hd⟩ := applyW_falsy ht'
    rw [applyW_allEmpty hws hd]
    by_cases hn : ws = []
    · subst hn; rfl
    · rw [if_neg hn]
      rw [applyW_allEmpty hws (show truthy (some "") = false from rfl), if_neg hn]

theorem applyW_comp_idem (l1 l2 : List String) (x : Option String) :
    applyW l1 (applyW l2 (applyW l1 (applyW l2 x))) = applyW l1 (applyW l2 x) := by
  by_cases ht : truthy (applyW l1 (applyW l2 x)) = true
  · rw [applyW_truthy ht l2, applyW_truthy ht l1]
  · have ht' : truthy (applyW l1 (applyW l2 x)) = false := by simpa using ht
    obtain ⟨hl1, hBx⟩ := applyW_falsy ht'
    obtain ⟨hl2, hx⟩ := applyW_falsy hBx
    by_cases h2 : l2 = []
    · subst h2
      exact applyW_idem l1 x
    · have hBx' : applyW l2 x = some "" := by
        rw [applyW_allEmpty hl2 hx, if_neg h2]
      by_cases h1 : l1 = []
      · subst h1
        exact applyW_idem l2 x
      · have hy : applyW l1 (applyW l2 x) = some "" := by
          rw [hBx', applyW_allEmpty hl1 (show truthy (some "") = false from rfl),
            if_neg h1]
        rw [hy]
        rw [applyW_allEmpty hl2 (show truthy (some "") = false from rfl), if_neg h2]
        rw [applyW_allEmpty hl1 (show truthy (some "") = false from rfl), if_neg h1]

theorem applyWhere_cons (w : String) (ws : List String) (t : LocCK) :
    applyWhere (w :: ws) t = applyWhere ws (whereVStep t w) := rfl

theorem whereVStep_truthy {t : LocCK} (h : truthy t.loc = true) (v : String) :
    whereVStep t v = t := by
  unfold whereVStep
  rw [if_pos h]

theorem applyWhere_truthy {t : LocCK} (h : truthy t.loc = true) (ws : List String) :
    applyWhere ws t = t := by
  induction ws with
  | nil => rfl
  | cons w rest ih => rw [applyWhere_cons, whereVStep_truthy h]; exact ih

theorem partsOf_empty : partsOf "" = [] := by decide

theorem whereVStep_empty {t : LocCK} (h : truthy t.loc = false) :
    whereVStep t "" = ⟨some "", t.city, t.country⟩ := by
  unfold whereVStep
  rw [if_neg (by simp [h]), partsOf_empty]
  split_ifs <;> rfl

theorem whereVStep_loc_falsy {t : LocCK} (h : truthy t.loc = false) (v : String) :
    (whereVStep t v).loc = some v := by
  unfold whereVStep
  rw [if_neg (by simp [h])]
  split_ifs
  · split <;> rfl
  · rfl

theorem applyWhere_falsy {ws : List String} {t : LocCK}
    (h : truthy (applyWhere ws t).loc = false) :
    (∀ w ∈ ws, w = "") ∧ truthy t.loc = false := by
  induction ws generalizing t with
  | nil => exact ⟨by simp, h⟩
  | cons w rest ih =>
    rw [applyWhere_cons] at h
    by_cases hl : truthy t.loc = true
    · rw [whereVStep_truthy hl, applyWhere_truthy hl] at h
      exact absurd h (by simp [hl])
    · have hl' : truthy t.loc = false := by simpa using hl
      by_cases hw : w = ""
      · subst hw
        rw [whereVStep_empty hl'] at h
        have hih := ih h
        refine ⟨?_, hl'⟩
        intro x hx
        rcases List.mem_cons.mp hx with rfl | hx
        · rfl
        · exact hih.1 x hx
      · exfalso
        have hvt : truthy (whereVStep t w).loc = true := by
          rw [whereVStep_loc_falsy hl']
          simpa [truthy] using hw
        rw [applyWhere_truthy hvt] at h
        rw [hvt] at h
        cases h

theorem applyWhere_allEmpty {ws : List String} (hws : ∀ w ∈ ws, w = "")
    {t : LocCK} (h : truthy t.loc = false) :
    applyWhere ws t = ⟨if ws = [] then t.loc else some "", t.city, t.country⟩ := by
  induction ws generalizing t with
  | nil => rfl
  | cons w rest ih =>
    have hw : w = "" := hws w (by simp)
    subst hw
    rw [applyWhere_cons, whereVStep_empty h]
    rw [ih (fun x hx => hws x (by simp [hx])) (show truthy (some "") = false from rfl)]
    simp

theorem applyWhere_idem (ws : List String) (t : LocCK) :
    applyWhere ws (applyWhere ws t) = applyWhere ws t := by
  by_cases ht : truthy (applyWhere ws t).loc = true
  · exact applyWhere_truthy ht ws
  · have ht' : truthy (applyWhere ws t).loc = false := by simpa using ht
    obtain ⟨hws, hloc⟩ := applyWhere_falsy ht'
    rw [applyWhere_allEmpty hws hloc]
    by_cases hn : ws = []
    · subst hn; rfl
    · rw [if_neg hn]
      rw [applyWhere_allEmpty hws (show truthy (some "") = false from rfl), if_neg hn]

theorem whereApply_proj (v : String) (m : Metadata) :
    (whereApply v m).caption = m.caption ∧ (whereApply v m).provider = m.provider ∧
    (whereApply v m).photographer = m.photographer ∧ (whereApply v m).title = m.title ∧
    (whereApply v m).subject = m.subject ∧ (whereApply v m).date = m.date ∧
    (whereApply v m).credit = m.credit ∧ (whereApply v m).featuring = m.featuring ∧
    (whereApply v m).image_id = m.image_id ∧ (whereApply v m).image_size = m.image_size ∧
    (whereApply v m).location = m.location := by
  unfold whereApply
  split_ifs
  · split <;> exact ⟨rfl, rfl, rfl, rfl, rfl, rfl, rfl, rfl, rfl, rfl, rfl⟩
  · exact ⟨rfl, rfl, rfl, rfl, rfl, rfl, rfl, rfl, rfl, rfl, rfl⟩

theorem whereUpdateStructured_proj (l : String) (m : Metadata) :
    (whereUpdateStructured l m).caption = m.caption ∧
    (whereUpdateStructured l m).provider = m.provider ∧
    (whereUpdateStructured l m).photographer = m.photographer ∧
    (whereUpdateStructured l m).title = m.title ∧
    (whereUpdateStructured l m).subject = m.subject ∧
    (whereUpdateStructured l m).date = m.date ∧
    (whereUpdateStructured l m).credit = m.credit ∧
    (whereUpdateStructured l m).featuring = m.featuring ∧
    (whereUpdateStructured l m).image_id = m.image_id ∧
    (whereUpdateStructured l m).image_size = m.image_size := by
  unfold whereUpdateStructured
  obtain ⟨h1, h2, h3, h4, h5, h6, h7, h8, h9, h10, -⟩ :=
    whereApply_proj (pyStrip (pyReplace l "Where:" ""))
      { m with location := some (pyStrip (pyReplace l "Where:" "")) }
  exact ⟨h1, h2, h3, h4, h5, h6, h7, h8, h9, h10⟩

theorem structChainM_of_no_marker {l : String} (m : Metadata)
    (h : markers.any (fun mk => pyStartswith l mk) = false) :
    structChainM l m = m := by
  have h' : pyStartswith l "Featuring:" = false ∧ pyStartswith l "Where:" = false ∧
      pyStartswith l "When:" = false ∧ pyStartswith l "Credit:" = false ∧
      pyStartswith l "SmartFrame image ID:" = false ∧
      pyStartswith l "Image size:" = false := by
    simpa [markers] using h
  obtain ⟨hf, hw, hn, hc, hs, hz⟩ := h'
  simp [structChainM, hf, hw, hn, hc, hs, hz]

theorem structChainM_untouched (l : String) (m : Metadata) :
    (structChainM l m).caption = m.caption ∧ (structChainM l m).provider = m.provider ∧
    (structChainM l m).photographer = m.photographer ∧
    (structChainM l m).title = m.title ∧ (structChainM l m).subject = m.subject := by
  unfold structChainM
  split_ifs <;>
    first
      | exact ⟨rfl, rfl, rfl, rfl, rfl⟩
      | exact ⟨(whereUpdateStructured_proj l m).1, (whereUpdateStructured_proj l m).2.1,
          (whereUpdateStructured_proj l m).2.2.1, (whereUpdateStructured_proj l m).2.2.2.1,
          (whereUpdateStructured_proj l m).2.2.2.2.1⟩

theorem structLineM_untouched (raw : String) (m : Metadata) :
    (structLineM raw m).caption = m.caption ∧ (structLineM raw m).provider = m.provider ∧
    (structLineM raw m).photographer = m.photographer ∧
    (structLineM raw m).title = m.title ∧ (structLineM raw m).subject = m.subject := by
  unfold structLineM
  split_ifs
  · exact ⟨rfl, rfl, rfl, rfl, rfl⟩
  · exact structChainM_untouched _ _

theorem structLineM_date (raw : String) (m : Metadata) :
    (structLineM raw m).date = wStep m.date (lineVal "When:" raw) := by
  unfold structLineM
  by_cases h0 : pyStrip raw = ""
  · rw [if_pos h0,
      show lineVal "When:" raw = none from by unfold lineVal; rw [if_neg (by simp [h0])]]
    rfl
  · rw [if_neg h0]
    by_cases hW : pyStartswith (pyStrip raw) "When:" = true
    · rw [show lineVal "When:" raw =
          some (pyStrip (pyReplace (pyStrip raw) "When:" "")) from by
        unfold lineVal; rw [if_pos ⟨h0, hW⟩]]
      unfold structChainM
      by_cases hd : truthy m.date = true
      · rw [if_neg (by simp [hd]), show wStep m.date
          (some (pyStrip (pyReplace (pyStrip raw) "When:" ""))) = m.date from by
            simp [wStep, hd]]
        split_ifs <;>
          first
            | rfl
            | exact (whereUpdateStructured_proj _ _).2.2.2.2.2.1
      · rw [if_pos ⟨hW, hd⟩, show wStep m.date
          (some (pyStrip (pyReplace (pyStrip raw) "When:" ""))) =
            some (pyStrip (pyReplace (pyStrip raw) "When:" "")) from by
          simp [wStep, hd]]
    · rw [show lineVal "When:" raw = none from by
        unfold lineVal; rw [if_neg (by simp [hW])]]
      unfold structChainM wStep
      rw [if_neg (by simp [hW])]
      split_ifs <;>
        first
          | rfl
          | exact (whereUpdateStructured_proj _ _).2.2.2.2.2.1

theorem structLineM_credit (raw : String) (m : Metadata) :
    (structLineM raw m).credit = wStep m.credit (lineVal "Credit:" raw) := by
  unfold structLineM
  by_cases h0 : pyStrip raw = ""
  · rw [if_pos h0, show lineVal "Credit:" raw = none from by
      unfold lineVal; rw [if_neg (by simp [h0])]]
    rfl
  · rw [if_neg h0]
    by_cases hC : pyStartswith (pyStrip raw) "Credit:" = true
    · rw [show lineVal "Credit:" raw =
          some (pyStrip (pyReplace (pyStrip raw) "Credit:" "")) from by
        unfold lineVal; rw [if_pos ⟨h0, hC⟩]]
      have hWn : pyStartswith (pyStrip raw) "When:" = false :=
        pyStartswith_excl _ _ (by decide) hC
      unfold structChainM
      rw [if_neg (by simp [hWn])]
      by_cases hc : truthy m.credit = true
      · rw [if_neg (by simp [hc]), show wStep m.credit
            (some (pyStrip (pyReplace (pyStrip raw) "Credit:" ""))) = m.credit from by
          simp [wStep, hc]]
        split_ifs <;>
          first
            | rfl
            | exact (whereUpdateStructured_proj _ _).2.2.2.2.2.2.1
      · rw [if_pos ⟨hC, hc⟩, show wStep m.credit
            (some (pyStrip (pyReplace (pyStrip raw) "Credit:" ""))) =
              some (pyStrip (pyReplace (pyStrip raw) "Credit:" "")) from by
          simp [wStep, hc]]
    · rw [show lineVal "Credit:" raw = none from by
        unfold lineVal; rw [if_neg (by simp [hC])]]
      unfold structChainM
      rw [if_neg (show ¬(pyStartswith (pyStrip raw) "Credit:" = true ∧
          ¬ truthy m.credit = true) from by simp [hC])]
      split_ifs <;>
        first
          | rfl
          | exact (whereUpdateStructured_proj _ _).2.2.2.2.2.2.1

theorem structLineM_featuring (raw : String) (m : Metadata) :
    (structLineM raw m).featuring = wStep m.featuring (lineVal "Featuring:" raw) := by
  unfold structLineM
  by_cases h0 : pyStrip raw = ""
  · rw [if_pos h0, show lineVal "Featuring:" raw = none from by
      unfold lineVal; rw [if_neg (by simp [h0])]]
    rfl
  · rw [if_neg h0]
    by_cases hF : pyStartswith (pyStrip raw) "Featuring:" = true
    · rw [show lineVal "Featuring:" raw =
          some (pyStrip (pyReplace (pyStrip raw) "Featuring:" "")) from by
        unfold lineVal; rw [if_pos ⟨h0, hF⟩]]
      have hWn : pyStartswith (pyStrip raw) "When:" = false :=
        pyStartswith_excl _ _ (by decide) hF
      have hCn : pyStartswith (pyStrip raw) "Credit:" = false :=
        pyStartswith_excl _ _ (by decide) hF
      unfold structChainM
      rw [if_neg (by simp [hWn]), if_neg (by simp [hCn])]
      by_cases hf : truthy m.featuring = true
      · rw [if_neg (by simp [hf]), show wStep m.featuring
            (some (pyStrip (pyReplace (pyStrip raw) "Featuring:" ""))) =
              m.featuring from by simp [wStep, hf]]
        split_ifs <;>
          first
            | rfl
            | exact (whereUpdateStructured_proj _ _).2.2.2.2.2.2.2.1
      · rw [if_pos ⟨hF, hf⟩, show wStep m.featuring
            (some (pyStrip (pyReplace (pyStrip raw) "Featuring:" ""))) =
              some (pyStrip (pyReplace (pyStrip raw) "Featuring:" "")) from by
          simp [wStep, hf]]
    · rw [show lineVal "Featuring:" raw = none from by
        unfold lineVal; rw [if_neg (by simp [hF])]]
      unfold structChainM
      rw [if_neg (show ¬(pyStartswith (pyStrip raw) "Featuring:" = true ∧
          ¬ truthy m.featuring = true) from by simp [hF])]
      split_ifs <;>
        first
          | rfl
          | exact (whereUpdateStructured_proj _ _).2.2.2.2.2.2.2.1

theorem structLineM_image_id (raw : String) (m : Metadata) :
    (structLineM raw m).image_id =
      wStep m.image_id (lineVal "SmartFrame image ID:" raw) := by
  unfold structLineM
  by_cases h0 : pyStrip raw = ""
  · rw [if_pos h0, show lineVal "SmartFrame image ID:" raw = none from by
      unfold lineVal; rw [if_neg (by simp [h0])]]
    rfl
  · rw [if_neg h0]
    by_cases hS : pyStartswith (pyStrip raw) "SmartFrame image ID:" = true
    · rw [show lineVal "SmartFrame image ID:" raw =
          some (pyStrip (pyReplace (pyStrip raw) "SmartFrame image ID:" "")) from by
        unfold lineVal; rw [if_pos ⟨h0, hS⟩]]
      have hWn : pyStartswith (pyStrip raw) "When:" = false :=
        pyStartswith_excl _ _ (by decide) hS
      have hCn : pyStartswith (pyStrip raw) "Credit:" = false :=
        pyStartswith_excl _ _ (by decide) hS
      have hFn : pyStartswith (pyStrip raw) "Featuring:" = false :=
        pyStartswith_excl _ _ (by decide) hS
      have hLn : pyStartswith (pyStrip raw) "Where:" = false :=
        pyStartswith_excl _ _ (by decide) hS
      unfold structChainM
      rw [if_neg (by simp [hWn]), if_neg (by simp [hCn]), if_neg (by simp [hFn]),
        if_neg (show ¬(pyStartswith (pyStrip raw) "Where:" = true ∧
          ¬ truthy m.location = true) from by simp [hLn])]
      by_cases hi : truthy m.image_id = true
      · rw [if_neg (by simp [hi]), show wStep m.image_id
            (some (pyStrip (pyReplace (pyStrip raw) "SmartFrame image ID:" ""))) =
              m.image_id from by simp [wStep, hi]]
        split_ifs <;> rfl
      · rw [if_pos ⟨hS, hi⟩, show wStep m.image_id
            (some (pyStrip (pyReplace (pyStrip raw) "SmartFrame image ID:" ""))) =
              some (pyStrip (pyReplace (pyStrip raw) "SmartFrame image ID:" ""))
            from by simp [wStep, hi]]
    · rw [show lineVal "SmartFrame image ID:" raw = none from by
        unfold lineVal; rw [if_neg (by simp [hS])]]
      unfold structChainM
      rw [if_neg (show ¬(pyStartswith (pyStrip raw) "SmartFrame image ID:" = true ∧
          ¬ truthy m.image_id = true) from by simp [hS])]
      split_ifs <;>
        first
          | rfl
          | exact (whereUpdateStructured_proj _ _).2.2.2.2.2.2.2.2.1

theorem structLineM_image_size (raw : String) (m : Metadata) :
    (structLineM raw m).image_size =
      wStep m.image_size (lineVal "Image size:" raw) := by
  unfold structLineM
  by_cases h0 : pyStrip raw = ""
  · rw [if_pos h0, show lineVal "Image size:" raw = none from by
      unfold lineVal; rw [if_neg (by simp [h0])]]
    rfl
  · rw [if_neg h0]
    by_cases hZ : pyStartswith (pyStrip raw) "Image size:" = true
    · rw [show lineVal "Image size:" raw =
          some (pyStrip (pyReplace (pyStrip raw) "Image size:" "")) from by
        unfold lineVal; rw [if_pos ⟨h0, hZ⟩]]
      have hWn : pyStartswith (pyStrip raw) "When:" = false :=
        pyStartswith_excl _ _ (by decide) hZ
      have hCn : pyStartswith (pyStrip raw) "Credit:" = false :=
        pyStartswith_excl _ _ (by decide) hZ
      have hFn : pyStartswith (pyStrip raw) "Featuring:" = false :=
        pyStartswith_excl _ _ (by decide) hZ
      have hLn : pyStartswith (pyStrip raw) "Where:" = false :=
        pyStartswith_excl _ _ (by decide) hZ
      have hSn : pyStartswith (pyStrip raw) "SmartFrame image ID:" = false :=
        pyStartswith_excl _ _ (by decide) hZ
      unfold structChainM
      rw [if_neg (by simp [hWn]), if_neg (by simp [hCn]), if_neg (by simp [hFn]),
        if_neg (show ¬(pyStartswith (pyStrip raw) "Where:" = true ∧
          ¬ truthy m.location = true) from by simp [hLn]),
        if_neg (by simp [hSn])]
      by_cases hz : truthy m.image_size = true
      · rw [if_neg (by simp [hz]), show wStep m.image_size
            (some (pyStrip (pyReplace (pyStrip raw) "Image size:" ""))) =
              m.image_size from by simp [wStep, hz]]
      · rw [if_pos ⟨hZ, hz⟩, show wStep m.image_size
            (some (pyStrip (pyReplace (pyStrip raw) "Image size:" ""))) =
              some (pyStrip (pyReplace (pyStrip raw) "Image size:" ""))
            from by simp [wStep, hz]]
    · rw [show lineVal "Image size:" raw = none from by
        unfold lineVal; rw [if_neg (by simp [hZ])]]
      unfold structChainM
      rw [if_neg (show ¬(pyStartswith (pyStrip raw) "Image size:" = true ∧
          ¬ truthy m.image_size = true) from by simp [hZ])]
      split_ifs <;>
        first
          | rfl
          | exact (whereUpdateStructured_proj _ _).2.2.2.2.2.2.2.2.2

theorem whereUpdateStructured_triple (l : String) (m : Metadata)
    (hloc : truthy m.location = false) :
    tripleOf (whereUpdateStructured l m) =
      whereVStep (tripleOf m) (pyStrip (pyReplace l "Where:" "")) := by
  unfold whereUpdateStructured whereApply whereVStep tripleOf
  dsimp only
  rw [if_neg (show ¬ truthy m.location = true from by simp [hloc])]
  split_ifs
  · split <;> rfl
  · rfl

theorem structLineM_triple (raw : String) (m : Metadata) :
    tripleOf (structLineM raw m) =
      (match lineVal "Where:" raw with
        | some v => whereVStep (tripleOf m) v
        | none => tripleOf m) := by
  unfold structLineM
  by_cases h0 : pyStrip raw = ""
  · rw [if_pos h0, show lineVal "Where:" raw = none from by
      unfold lineVal; rw [if_neg (by simp [h0])]]
  · rw [if_neg h0]
    by_cases hW : pyStartswith (pyStrip raw) "Where:" = true
    · rw [show lineVal "Where:" raw =
          some (pyStrip (pyReplace (pyStrip raw) "Where:" "")) from by
        unfold lineVal; rw [if_pos ⟨h0, hW⟩]]
      have h1 : pyStartswith (pyStrip raw) "When:" = false :=
        pyStartswith_excl _ _ (by decide) hW
      have h2 : pyStartswith (pyStrip raw) "Credit:" = false :=
        pyStartswith_excl _ _ (by decide) hW
      have h3 : pyStartswith (pyStrip raw) "Featuring:" = false :=
        pyStartswith_excl _ _ (by decide) hW
      unfold structChainM
      rw [if_neg (by simp [h1]), if_neg (by simp [h2]), if_neg (by simp [h3])]
      dsimp only
      by_cases hloc : truthy m.location = true
      · rw [if_neg (show ¬(pyStartswith (pyStrip raw) "Where:" = true ∧
            ¬ truthy m.location = true) from by simp [hloc])]
        rw [whereVStep_truthy (show truthy (tripleOf m).loc = true from hloc)]
        split_ifs <;> rfl
      · have hloc' : truthy m.location = false := by simpa using hloc
        rw [if_pos ⟨hW, hloc⟩]
        exact whereUpdateStructured_triple _ _ hloc'
    · rw [show lineVal "Where:" raw = none from by
        unfold lineVal; rw [if_neg (by simp [hW])]]
      unfold structChainM
      rw [if_neg (show ¬(pyStartswith (pyStrip raw) "Where:" = true ∧
          ¬ truthy m.location = true) from by simp [hW])]
      split_ifs <;> rfl

theorem detailFold_step (st : DetailState) (raw : String) :
    structLineFull st raw =
      ⟨(prefLineStep (st.preface, st.started) raw).1,
       (prefLineStep (st.preface, st.started) raw).2, structLineM raw st.m⟩ := by
  unfold structLineFull prefLineStep structLineM
  dsimp only
  split_ifs with h1 h2
  · rfl
  · have hnm : markers.any (fun mk => pyStartswith (pyStrip raw) mk) = false := by
      simpa using h2.2
    rw [structChainM_of_no_marker _ hnm]
  · rfl

theorem detailFold_decomp (lines : List String) (pl : List String) (b : Bool)
    (m : Metadata) :
    lines.foldl structLineFull ⟨pl, b, m⟩ =
      ⟨(lines.foldl prefLineStep (pl, b)).1, (lines.foldl prefLineStep (pl, b)).2,
        foldM lines m⟩ := by
  induction lines generalizing pl b m with
  | nil => rfl
  | cons raw rest ih =>
    rw [List.foldl_cons, List.foldl_cons, detailFold_step]
    dsimp only
    rw [ih]
    rfl

theorem foldM_untouched (lines : List String) (m : Metadata) :
    (foldM lines m).caption = m.caption ∧ (foldM lines m).provider = m.provider ∧
    (foldM lines m).photographer = m.photographer ∧
    (foldM lines m).title = m.title ∧ (foldM lines m).subject = m.subject := by
  induction lines generalizing m with
  | nil => exact ⟨rfl, rfl, rfl, rfl, rfl⟩
  | cons raw rest ih =>
    rw [show foldM (raw :: rest) m = foldM rest (structLineM raw m) from rfl]
    obtain ⟨i1, i2, i3, i4, i5⟩ := ih (structLineM raw m)
    obtain ⟨s1, s2, s3, s4, s5⟩ := structLineM_untouched raw m
    exact ⟨i1.trans s1, i2.trans s2, i3.trans s3, i4.trans s4, i5.trans s5⟩

theorem foldM_date (lines : List String) (m : Metadata) :
    (foldM lines m).date = applyW (lines.filterMap (lineVal "When:")) m.date := by
  induction lines generalizing m with
  | nil => rfl
  | cons raw rest ih =>
    rw [show foldM (raw :: rest) m = foldM rest (structLineM raw m) from rfl,
      ih, structLineM_date]
    cases hlv : lineVal "When:" raw <;>
      simp [List.filterMap_cons, hlv, applyW_cons, wStep]

theorem foldM_credit (lines : List String) (m : Metadata) :
    (foldM lines m).credit = applyW (lines.filterMap (lineVal "Credit:")) m.credit := by
  induction lines generalizing m with
  | nil => rfl
  | cons raw rest ih =>
    rw [show foldM (raw :: rest) m = foldM rest (structLineM raw m) from rfl,
      ih, structLineM_credit]
    cases hlv : lineVal "Credit:" raw <;>
      simp [List.filterMap_cons, hlv, applyW_cons, wStep]

theorem foldM_featuring (lines : List String) (m : Metadata) :
    (foldM lines m).featuring =
      applyW (lines.filterMap (lineVal "Featuring:")) m.featuring := by
  induction lines generalizing m with
  | nil => rfl
  | cons raw rest ih =>
    rw [show foldM (raw :: rest) m = foldM rest (structLineM raw m) from rfl,
      ih, structLineM_featuring]
    cases hlv : lineVal "Featuring:" raw <;>
      simp [List.filterMap_cons, hlv, applyW_cons, wStep]

theorem foldM_image_id (lines : List String) (m : Metadata) :
    (foldM lines m).image_id =
      applyW (lines.filterMap (lineVal "SmartFrame image ID:")) m.image_id := by
  induction lines generalizing m with
  | nil => rfl
  | cons raw rest ih =>
    rw [show foldM (raw :: rest) m = foldM rest (structLineM raw m) from rfl,
      ih, structLineM_image_id]
    cases hlv : lineVal "SmartFrame image ID:" raw <;>
      simp [List.filterMap_cons, hlv, applyW_cons, wStep]

theorem foldM_image_size (lines : List String) (m : Metadata) :
    (foldM lines m).image_size =
      applyW (lines.filterMap (lineVal "Image size:")) m.image_size := by
  induction lines generalizing m with
  | nil => rfl
  | cons raw rest ih =>
    rw [show foldM (raw :: rest) m = foldM rest (structLineM raw m) from rfl,
      ih, structLineM_image_size]
    cases hlv : lineVal "Image size:" raw <;>
      simp [List.filterMap_cons, hlv, applyW_cons, wStep]

theorem foldM_triple (lines : List String) (m : Metadata) :
    tripleOf (foldM lines m) =
      applyWhere (lines.filterMap (lineVal "Where:")) (tripleOf m) := by
  induction lines generalizing m with
  | nil => rfl
  | cons raw rest ih =>
    rw [show foldM (raw :: rest) m = foldM rest (structLineM raw m) from rfl,
      ih, structLineM_triple]
    cases hlv : lineVal "Where:" raw <;>
      simp [List.filterMap_cons, hlv, applyWhere_cons]

theorem mergePreface_proj (p : String) (m : Metadata) :
    (mergePreface p m).caption = mergeCapFun p m.caption ∧
    (mergePreface p m).title = pyOrStr m.title p ∧
    (mergePreface p m).subject = pyOrStr m.subject p ∧
    (mergePreface p m).date = m.date ∧ (mergePreface p m).credit = m.credit ∧
    (mergePreface p m).featuring = m.featuring ∧
    (mergePreface p m).image_id = m.image_id ∧
    (mergePreface p m).image_size = m.image_size ∧
    (mergePreface p m).provider = m.provider ∧
    (mergePreface p m).location = m.location ∧ (mergePreface p m).city = m.city ∧
    (mergePreface p m).country = m.country ∧
    (mergePreface p m).photographer = m.photographer := by
  unfold mergePreface mergeCapFun
  exact ⟨rfl, rfl, rfl, rfl, rfl, rfl, rfl, rfl, rfl, rfl, rfl, rfl, rfl⟩

theorem mergePreface_triple (p : String) (m : Metadata) :
    tripleOf (mergePreface p m) = tripleOf m := by
  unfold tripleOf
  rw [(mergePreface_proj p m).2.2.2.2.2.2.2.2.2.1,
    (mergePreface_proj p m).2.2.2.2.2.2.2.2.2.2.1,
    (mergePreface_proj p m).2.2.2.2.2.2.2.2.2.2.2.1]

theorem detailsStep_caption (o : Option String) (m : Metadata) :
    (detailsStep o m).caption = capPost o m.caption := by
  cases o with
  | none => rfl
  | some t =>
    by_cases h0 : t = ""
    · subst h0
      simp [detailsStep, capPost, prefaceOf]
    · unfold detailsStep
      dsimp only
      rw [if_neg h0, detailFold_decomp]
      unfold mergeAfterFold capPost prefaceOf
      dsimp only
      simp only [if_neg h0]
      split_ifs with hp
      · rw [(mergePreface_proj _ _).1, (foldM_untouched _ _).1]
      · exact (foldM_untouched _ _).1

theorem detailsStep_title (o : Option String) (m : Metadata) :
    (detailsStep o m).title = orPost o m.title := by
  cases o with
  | none => rfl
  | some t =>
    by_cases h0 : t = ""
    · subst h0
      simp [detailsStep, orPost, prefaceOf]
    · unfold detailsStep
      dsimp only
      rw [if_neg h0, detailFold_decomp]
      unfold mergeAfterFold orPost prefaceOf
      dsimp only
      simp only [if_neg h0]
      split_ifs with hp
      · rw [(mergePreface_proj _ _).2.1, (foldM_untouched _ _).2.2.2.1]
      · exact (foldM_untouched _ _).2.2.2.1

theorem detailsStep_subject (o : Option String) (m : Metadata) :
    (detailsStep o m).subject = orPost o m.subject := by
  cases o with
  | none => rfl
  | some t =>
    by_cases h0 : t = ""
    · subst h0
      simp [detailsStep, orPost, prefaceOf]
    · unfold detailsStep
      dsimp only
      rw [if_neg h0, detailFold_decomp]
      unfold mergeAfterFold orPost prefaceOf
      dsimp only
      simp only [if_neg h0]
      split_ifs with hp
      · rw [(mergePreface_proj _ _).2.2.1, (foldM_untouched _ _).2.2.2.2]
      · exact (foldM_untouched _ _).2.2.2.2

theorem detailsStep_provider (o : Option String) (m : Metadata) :
    (detailsStep o m).provider = m.provider := by
  cases o with
  | none => rfl
  | some t =>
    by_cases h0 : t = ""
    · subst h0
      simp [detailsStep]
    · unfold detailsStep
      dsimp only
      rw [if_neg h0, detailFold_decomp]
      unfold mergeAfterFold
      dsimp only
      split_ifs with hp
      · rw [(mergePreface_proj _ _).2.2.2.2.2.2.2.2.1]
        exact (foldM_untouched _ _).2.1
      · exact (foldM_untouched _ _).2.1

theorem detailsStep_photographer (o : Option String) (m : Metadata) :
    (detailsStep o m).photographer = m.photographer := by
  cases o with
  | none => rfl
  | some t =>
    by_cases h0 : t = ""
    · subst h0
      simp [detailsStep]
    · unfold detailsStep
      dsimp only
      rw [if_neg h0, detailFold_decomp]
      unfold mergeAfterFold
      dsimp only
      split_ifs with hp
      · rw [(mergePreface_proj _ _).2.2.2.2.2.2.2.2.2.2.2.2]
        exact (foldM_untouched _ _).2.2.1
      · exact (foldM_untouched _ _).2.2.1

theorem detailsStep_date (o : Option String) (m : Metadata) :
    (detailsStep o m).date = applyW (detailVals "When:" o) m.date := by
  cases o with
  | none => rfl
  | some t =>
    by_cases h0 : t = ""
    · subst h0
      simp [detailsStep, detailVals, applyW]
    · unfold detailsStep detailVals
      dsimp only
      rw [if_neg h0, if_neg h0, detailFold_decomp]
      unfold mergeAfterFold
      dsimp only
      split_ifs with hp
      · rw [(mergePreface_proj _ _).2.2.2.1, foldM_date]
      · exact foldM_date _ _

theorem detailsStep_credit (o : Option String) (m : Metadata) :
    (detailsStep o m).credit = applyW (detailVals "Credit:" o) m.credit := by
  cases o with
  | none => rfl
  | some t =>
    by_cases h0 : t = ""
    · subst h0
      simp [detailsStep, detailVals, applyW]
    · unfold detailsStep detailVals
      dsimp only
      rw [if_neg h0, if_neg h0, detailFold_decomp]
      unfold mergeAfterFold
      dsimp only
      split_ifs with hp
      · rw [(mergePreface_proj _ _).2.2.2.2.1, foldM_credit]
      · exact foldM_credit _ _

theorem detailsStep_featuring (o : Option String) (m : Metadata) :
    (detailsStep o m).featuring = applyW (detailVals "Featuring:" o) m.featuring := by
  cases o with
  | none => rfl
  | some t =>
    by_cases h0 : t = ""
    · subst h0
      simp [detailsStep, detailVals, applyW]
    · unfold detailsStep detailVals
      dsimp only
      rw [if_neg h0, if_neg h0, detailFold_decomp]
      unfold mergeAfterFold
      dsimp only
      split_ifs with hp
      · rw [(mergePreface_proj _ _).2.2.2.2.2.1, foldM_featuring]
      · exact foldM_featuring _ _

theorem detailsStep_image_id (o : Option String) (m : Metadata) :
    (detailsStep o m).image_id =
      applyW (detailVals "SmartFrame image ID:" o) m.image_id := by
  cases o with
  | none => rfl
  | some t =>
    by_cases h0 : t = ""
    · subst h0
      simp [detailsStep, detailVals, applyW]
    · unfold detailsStep detailVals
      dsimp only
      rw [if_neg h0, if_neg h0, detailFold_decomp]
      unfold mergeAfterFold
      dsimp only
      split_ifs with hp
      · rw [(mergePreface_proj _ _).2.2.2.2.2.2.1, foldM_image_id]
      · exact foldM_image_id _ _

theorem detailsStep_image_size (o : Option String) (m : Metadata) :
    (detailsStep o m).image_size =
      applyW (detailVals "Image size:" o) m.image_size := by
  cases o with
  | none => rfl
  | some t =>
    by_cases h0 : t = ""
    · subst h0
      simp [detailsStep, detailVals, applyW]
    · unfold detailsStep detailVals
      dsimp only
      rw [if_neg h0, if_neg h0, detailFold_decomp]
      unfold mergeAfterFold
      dsimp only
      split_ifs with hp
      · rw [(mergePreface_proj _ _).2.2.2.2.2.2.2.1, foldM_image_size]
      · exact foldM_image_size _ _

theorem detailsStep_triple (o : Option String) (m : Metadata) :
    tripleOf (detailsStep o m) = applyWhere (detailVals "Where:" o) (tripleOf m) := by
  cases o with
  | none => rfl
  | some t =>
    by_cases h0 : t = ""
    · subst h0
      simp [detailsStep, detailVals, applyWhere]
    · unfold detailsStep detailVals
      dsimp only
      rw [if_neg h0, if_neg h0, detailFold_decomp]
      unfold mergeAfterFold
      dsimp only
      split_ifs with hp
      · rw [mergePreface_triple, foldM_triple]
      · exact foldM_triple _ _

theorem providerStep_eq (o : Option String) (m : Metadata) :
    providerStep o m = { m with provider := headingT o m.provider } := by
  cases o with
  | none => rfl
  | some t =>
    unfold providerStep headingT
    dsimp only
    split_ifs <;> rfl

theorem captionStep_eq (o : Option String) (m : Metadata) :
    captionStep o m = { m with caption := headingT o m.caption } := by
  cases o with
  | none => rfl
  | some t =>
    unfold captionStep headingT
    dsimp only
    split_ifs <;> rfl

theorem listItemStep_untouched (item : String) (m : Metadata) :
    (listItemStep item m).caption = m.caption ∧
    (listItemStep item m).provider = m.provider ∧
    (listItemStep item m).title = m.title ∧
    (listItemStep item m).subject = m.subject ∧
    (listItemStep item m).date = m.date ∧
    (listItemStep item m).featuring = m.featuring ∧
    (listItemStep item m).location = m.location := by
  unfold listItemStep listLabelChain
  split_ifs <;> exact ⟨rfl, rfl, rfl, rfl, rfl, rfl, rfl⟩

theorem listItemStep_image_id (item : String) (m : Metadata) :
    (listItemStep item m).image_id = wStep m.image_id (itemVal "smartframe image id" item) := by
  unfold listItemStep
  by_cases h1 : item = ""
  · rw [if_pos h1, show itemVal "smartframe image id" item = none from by
      unfold itemVal; rw [if_neg (by simp [h1])]]
    rfl
  · rw [if_neg h1]
    by_cases h2 : pyStrip item = ""
    · rw [if_pos h2, show itemVal "smartframe image id" item = none from by
        unfold itemVal; rw [if_neg (by simp [h2])]]
      rfl
    · rw [if_neg h2]
      by_cases h3 : pyIn ":" (listItemNormalized item) = true
      · rw [if_pos h3]
        by_cases hl : itemLabel item = "smartframe image id"
        · rw [show itemVal "smartframe image id" item = some (itemValue item) from by
            unfold itemVal; rw [if_pos ⟨h1, h2, h3, hl⟩]]
          unfold listLabelChain
          by_cases hf : truthy m.image_id = true
          · rw [if_neg (show ¬(itemLabel item = "smartframe image id" ∧
                ¬ truthy m.image_id = true) from by simp [hf]),
              show wStep m.image_id (some (itemValue item)) = m.image_id from by
                simp [wStep, hf]]
            split_ifs <;> rfl
          · rw [if_pos ⟨hl, hf⟩,
              show wStep m.image_id (some (itemValue item)) = some (itemValue item)
                from by simp [wStep, hf]]
        · rw [show itemVal "smartframe image id" item = none from by
            unfold itemVal; rw [if_neg (by simp [hl])]]
          unfold listLabelChain
          rw [if_neg (show ¬(itemLabel item = "smartframe image id" ∧
              ¬ truthy m.image_id = true) from by simp [hl])]
          split_ifs <;> rfl
      · rw [if_neg h3, show itemVal "smartframe image id" item = none from by
          unfold itemVal; rw [if_neg (by simp [h3])]]
        rfl

theorem listItemStep_image_size (item : String) (m : Metadata) :
    (listItemStep item m).image_size = wStep m.image_size (itemVal "image size" item) := by
  unfold listItemStep
  by_cases h1 : item = ""
  · rw [if_pos h1, show itemVal "image size" item = none from by
      unfold itemVal; rw [if_neg (by simp [h1])]]
    rfl
  · rw [if_neg h1]
    by_cases h2 : pyStrip item = ""
    · rw [if_pos h2, show itemVal "image size" item = none from by
        unfold itemVal; rw [if_neg (by simp [h2])]]
      rfl
    · rw [if_neg h2]
      by_cases h3 : pyIn ":" (listItemNormalized item) = true
      · rw [if_pos h3]
        by_cases hl : itemLabel item = "image size"
        · rw [show itemVal "image size" item = some (itemValue item) from by
            unfold itemVal; rw [if_pos ⟨h1, h2, h3, hl⟩]]
          unfold listLabelChain
          by_cases hf : truthy m.image_size = true
          · rw [if_neg (show ¬(itemLabel item = "image size" ∧
                ¬ truthy m.image_size = true) from by simp [hf]),
              show wStep m.image_size (some (itemValue item)) = m.image_size from by
                simp [wStep, hf]]
            split_ifs <;> rfl
          · rw [if_neg (by simp [hl]), if_pos ⟨hl, hf⟩,
              show wStep m.image_size (some (itemValue item)) = some (itemValue item)
                from by simp [wStep, hf]]
        · rw [show itemVal "image size" item = none from by
            unfold itemVal; rw [if_neg (by simp [hl])]]
          unfold listLabelChain
          rw [if_neg (show ¬(itemLabel item = "image size" ∧
              ¬ truthy m.image_size = true) from by simp [hl])]
          split_ifs <;> rfl
      · rw [if_neg h3, show itemVal "image size" item = none from by
          unfold itemVal; rw [if_neg (by simp [h3])]]
        rfl

theorem listItemStep_credit (item : String) (m : Metadata) :
    (listItemStep item m).credit = wStep m.credit (itemVal "credit" item) := by
  unfold listItemStep
  by_cases h1 : item = ""
  · rw [if_pos h1, show itemVal "credit" item = none from by
      unfold itemVal; rw [if_neg (by simp [h1])]]
    rfl
  · rw [if_neg h1]
    by_cases h2 : pyStrip item = ""
    · rw [if_pos h2, show itemVal "credit" item = none from by
        unfold itemVal; rw [if_neg (by simp [h2])]]
      rfl
    · rw [if_neg h2]
      by_cases h3 : pyIn ":" (listItemNormalized item) = true
      · rw [if_pos h3]
        by_cases hl : itemLabel item = "credit"
        · rw [show itemVal "credit" item = some (itemValue item) from by
            unfold itemVal; rw [if_pos ⟨h1, h2, h3, hl⟩]]
          unfold listLabelChain
          by_cases hf : truthy m.credit = true
          · rw [if_neg (show ¬(itemLabel item = "credit" ∧
                ¬ truthy m.credit = true) from by simp [hf]),
              show wStep m.credit (some (itemValue item)) = m.credit from by
                simp [wStep, hf]]
            split_ifs <;> rfl
          · rw [if_neg (by simp [hl]), if_neg (by simp [hl]), if_pos ⟨hl, hf⟩,
              show wStep m.credit (some (itemValue item)) = some (itemValue item)
                from by simp [wStep, hf]]
        · rw [show itemVal "credit" item = none from by
            unfold itemVal; rw [if_neg (by simp [hl])]]
          unfold listLabelChain
          rw [if_neg (show ¬(itemLabel item = "credit" ∧
              ¬ truthy m.credit = true) from by simp [hl])]
          split_ifs <;> rfl
      · rw [if_neg h3, show itemVal "credit" item = none from by
          unfold itemVal; rw [if_neg (by simp [h3])]]
        rfl

theorem listItemStep_photographer (item : String) (m : Metadata) :
    (listItemStep item m).photographer = wStep m.photographer (itemVal "photographer" item) := by
  unfold listItemStep
  by_cases h1 : item = ""
  · rw [if_pos h1, show itemVal "photographer" item = none from by
      unfold itemVal; rw [if_neg (by simp [h1])]]
    rfl
  · rw [if_neg h1]
    by_cases h2 : pyStrip item = ""
    · rw [if_pos h2, show itemVal "photographer" item = none from by
        unfold itemVal; rw [if_neg (by simp [h2])]]
      rfl
    · rw [if_neg h2]
      by_cases h3 : pyIn ":" (listItemNormalized item) = true
      · rw [if_pos h3]
        by_cases hl : itemLabel item = "photographer"
        · rw [show itemVal "photographer" item = some (itemValue item) from by
            unfold itemVal; rw [if_pos ⟨h1, h2, h3, hl⟩]]
          unfold listLabelChain
          by_cases hf : truthy m.photographer = true
          · rw [if_neg (show ¬(itemLabel item = "photographer" ∧
                ¬ truthy m.photographer = true) from by simp [hf]),
              show wStep m.photographer (some (itemValue item)) = m.photographer from by
                simp [wStep, hf]]
            split_ifs <;> rfl
          · rw [if_neg (by simp [hl]), if_neg (by simp [hl]), if_neg (by simp [hl]), if_pos ⟨hl, hf⟩,
              show wStep m.photographer (some (itemValue item)) = some (itemValue item)
                from by simp [wStep, hf]]
        · rw [show itemVal "photographer" item = none from by
            unfold itemVal; rw [if_neg (by simp [hl])]]
          unfold listLabelChain
          rw [if_neg (show ¬(itemLabel item = "photographer" ∧
              ¬ truthy m.photographer = true) from by simp [hl])]
          split_ifs <;> rfl
      · rw [if_neg h3, show itemVal "photographer" item = none from by
          unfold itemVal; rw [if_neg (by simp [h3])]]
        rfl

theorem listItemStep_country (item : String) (m : Metadata) :
    (listItemStep item m).country = wStep m.country (itemVal "country" item) := by
  unfold listItemStep
  by_cases h1 : item = ""
  · rw [if_pos h1, show itemVal "country" item = none from by
      unfold itemVal; rw [if_neg (by simp [h1])]]
    rfl
  · rw [if_neg h1]
    by_cases h2 : pyStrip item = ""
    · rw [if_pos h2, show itemVal "country" item = none from by
        unfold itemVal; rw [if_neg (by simp [h2])]]
      rfl
    · rw [if_neg h2]
      by_cases h3 : pyIn ":" (listItemNormalized item) = true
      · rw [if_pos h3]
        by_cases hl : itemLabel item = "country"
        · rw [show itemVal "country" item = some (itemValue item) from by
            unfold itemVal; rw [if_pos ⟨h1, h2, h3, hl⟩]]
          unfold listLabelChain
          by_cases hf : truthy m.country = true
          · rw [if_neg (show ¬(itemLabel item = "country" ∧
                ¬ truthy m.country = true) from by simp [hf]),
              show wStep m.country (some (itemValue item)) = m.country from by
                simp [wStep, hf]]
            split_ifs <;> rfl
          · rw [if_neg (by simp [hl]), if_neg (by simp [hl]), if_neg (by simp [hl]), if_neg (by simp [hl]), if_pos ⟨hl, hf⟩,
              show wStep m.country (some (itemValue item)) = some (itemValue item)
                from by simp [wStep, hf]]
        · rw [show itemVal "country" item = none from by
            unfold itemVal; rw [if_neg (by simp [hl])]]
          unfold listLabelChain
          rw [if_neg (show ¬(itemLabel item = "country" ∧
              ¬ truthy m.country = true) from by simp [hl])]
          split_ifs <;> rfl
      · rw [if_neg h3, show itemVal "country" item = none from by
          unfold itemVal; rw [if_neg (by simp [h3])]]
        rfl

theorem listItemStep_city (item : String) (m : Metadata) :
    (listItemStep item m).city = wStep m.city (itemVal "city" item) := by
  unfold listItemStep
  by_cases h1 : item = ""
  · rw [if_pos h1, show itemVal "city" item = none from by
      unfold itemVal; rw [if_neg (by simp [h1])]]
    rfl
  · rw [if_neg h1]
    by_cases h2 : pyStrip item = ""
    · rw [if_pos h2, show itemVal "city" item = none from by
        unfold itemVal; rw [if_neg (by simp [h2])]]
      rfl
    · rw [if_neg h2]
      by_cases h3 : pyIn ":" (listItemNormalized item) = true
      · rw [if_pos h3]
        by_cases hl : itemLabel item = "city"
        · rw [show itemVal "city" item = some (itemValue item) from by
            unfold itemVal; rw [if_pos ⟨h1, h2, h3, hl⟩]]
          unfold listLabelChain
          by_cases hf : truthy m.city = true
          · rw [if_neg (show ¬(itemLabel item = "city" ∧
                ¬ truthy m.city = true) from by simp [hf]),
              show wStep m.city (some (itemValue item)) = m.city from by
                simp [wStep, hf]]
            split_ifs <;> rfl
          · rw [if_neg (by simp [hl]), if_neg (by simp [hl]), if_neg (by simp [hl]), if_neg (by simp [hl]), if_neg (by simp [hl]), if_pos ⟨hl, hf⟩,
              show wStep m.city (some (itemValue item)) = some (itemValue item)
                from by simp [wStep, hf]]
        · rw [show itemVal "city" item = none from by
            unfold itemVal; rw [if_neg (by simp [hl])]]
          unfold listLabelChain
          rw [if_neg (show ¬(itemLabel item = "city" ∧
              ¬ truthy m.city = true) from by simp [hl])]
          split_ifs <;> rfl
      · rw [if_neg h3, show itemVal "city" item = none from by
          unfold itemVal; rw [if_neg (by simp [h3])]]
        rfl

theorem listStep_untouched (items : List String) (m : Metadata) :
    (listStep items m).caption = m.caption ∧
    (listStep items m).provider = m.provider ∧
    (listStep items m).title = m.title ∧
    (listStep items m).subject = m.subject ∧
    (listStep items m).date = m.date ∧
    (listStep items m).featuring = m.featuring ∧
    (listStep items m).location = m.location := by
  induction items generalizing m with
  | nil => exact ⟨rfl, rfl, rfl, rfl, rfl, rfl, rfl⟩
  | cons item rest ih =>
    rw [show listStep (item :: rest) m = listStep rest (listItemStep item m) from rfl]
    obtain ⟨i1, i2, i3, i4, i5, i6, i7⟩ := ih (listItemStep item m)
    obtain ⟨s1, s2, s3, s4, s5, s6, s7⟩ := listItemStep_untouched item m
    exact ⟨i1.trans s1, i2.trans s2, i3.trans s3, i4.trans s4, i5.trans s5,
      i6.trans s6, i7.trans s7⟩

theorem listStep_image_id (items : List String) (m : Metadata) :
    (listStep items m).image_id = applyW (itemVals "smartframe image id" items) m.image_id := by
  induction items generalizing m with
  | nil => rfl
  | cons item rest ih =>
    rw [show listStep (item :: rest) m = listStep rest (listItemStep item m) from rfl,
      ih, listItemStep_image_id]
    cases hv : itemVal "smartframe image id" item <;>
      simp [itemVals, List.filterMap_cons, hv, applyW_cons, wStep]

theorem listStep_image_size (items : List String) (m : Metadata) :
    (listStep items m).image_size = applyW (itemVals "image size" items) m.image_size := by
  induction items generalizing m with
  | nil => rfl
  | cons item rest ih =>
    rw [show listStep (item :: rest) m = listStep rest (listItemStep item m) from rfl,
      ih, listItemStep_image_size]
    cases hv : itemVal "image size" item <;>
      simp [itemVals, List.filterMap_cons, hv, applyW_cons, wStep]

theorem listStep_credit (items : List String) (m : Metadata) :
    (listStep items m).credit = applyW (itemVals "credit" items) m.credit := by
  induction items generalizing m with
  | nil => rfl
  | cons item rest ih =>
    rw [show listStep (item :: rest) m = listStep rest (listItemStep item m) from rfl,
      ih, listItemStep_credit]
    cases hv : itemVal "credit" item <;>
      simp [itemVals, List.filterMap_cons, hv, applyW_cons, wStep]

theorem listStep_photographer (items : List String) (m : Metadata) :
    (listStep items m).photographer = applyW (itemVals "photographer" items) m.photographer := by
  induction items generalizing m with
  | nil => rfl
  | cons item rest ih =>
    rw [show listStep (item :: rest) m = listStep rest (listItemStep item m) from rfl,
      ih, listItemStep_photographer]
    cases hv : itemVal "photographer" item <;>
      simp [itemVals, List.filterMap_cons, hv, applyW_cons, wStep]

theorem listStep_country (items : List String) (m : Metadata) :
    (listStep items m).country = applyW (itemVals "country" items) m.country := by
  induction items generalizing m with
  | nil => rfl
  | cons item rest ih =>
    rw [show listStep (item :: rest) m = listStep rest (listItemStep item m) from rfl,
      ih, listItemStep_country]
    cases hv : itemVal "country" item <;>
      simp [itemVals, List.filterMap_cons, hv, applyW_cons, wStep]

theorem listStep_city (items : List String) (m : Metadata) :
    (listStep items m).city = applyW (itemVals "city" items) m.city := by
  induction items generalizing m with
  | nil => rfl
  | cons item rest ih =>
    rw [show listStep (item :: rest) m = listStep rest (listItemStep item m) from rfl,
      ih, listItemStep_city]
    cases hv : itemVal "city" item <;>
      simp [itemVals, List.filterMap_cons, hv, applyW_cons, wStep]

theorem captionStep_triple (o : Option String) (m : Metadata) :
    tripleOf (captionStep o m) = tripleOf m := by
  rw [captionStep_eq]; rfl

theorem providerStep_triple (o : Option String) (m : Metadata) :
    tripleOf (providerStep o m) = tripleOf m := by
  rw [providerStep_eq]; rfl

theorem structuredPass_provider (c : Container) (m : Metadata) :
    (structuredPass c m).provider = headingT c.providerText m.provider := by
  unfold structuredPass
  rw [(listStep_untouched _ _).2.1, detailsStep_provider, captionStep_eq]
  dsimp only
  rw [providerStep_eq]

theorem structuredPass_caption (c : Container) (m : Metadata) :
    (structuredPass c m).caption =
      capPost c.detailsText (headingT c.captionText m.caption) := by
  unfold structuredPass
  rw [(listStep_untouched _ _).1, detailsStep_caption, captionStep_eq]
  dsimp only
  rw [providerStep_eq]

theorem structuredPass_title (c : Container) (m : Metadata) :
    (structuredPass c m).title = orPost c.detailsText m.title := by
  unfold structuredPass
  rw [(listStep_untouched _ _).2.2.1, detailsStep_title, captionStep_eq]
  dsimp only
  rw [providerStep_eq]

theorem structuredPass_subject (c : Container) (m : Metadata) :
    (structuredPass c m).subject = orPost c.detailsText m.subject := by
  unfold structuredPass
  rw [(listStep_untouched _ _).2.2.2.1, detailsStep_subject, captionStep_eq]
  dsimp only
  rw [providerStep_eq]

theorem structuredPass_date (c : Container) (m : Metadata) :
    (structuredPass c m).date =
      applyW (detailVals "When:" c.detailsText) m.date := by
  unfold structuredPass
  rw [(listStep_untouched _ _).2.2.2.2.1, detailsStep_date, captionStep_eq]
  dsimp only
  rw [providerStep_eq]

theorem structuredPass_featuring (c : Container) (m : Metadata) :
    (structuredPass c m).featuring =
      applyW (detailVals "Featuring:" c.detailsText) m.featuring := by
  unfold structuredPass
  rw [(listStep_untouched _ _).2.2.2.2.2.1, detailsStep_featuring, captionStep_eq]
  dsimp only
  rw [providerStep_eq]

theorem structuredPass_credit (c : Container) (m : Metadata) :
    (structuredPass c m).credit =
      applyW (itemVals "credit" c.listItems)
        (applyW (detailVals "Credit:" c.detailsText) m.credit) := by
  unfold structuredPass
  rw [listStep_credit, detailsStep_credit, captionStep_eq]
  dsimp only
  rw [providerStep_eq]

theorem structuredPass_image_id (c : Container) (m : Metadata) :
    (structuredPass c m).image_id =
      applyW (itemVals "smartframe image id" c.listItems)
        (applyW (detailVals "SmartFrame image ID:" c.detailsText) m.image_id) := by
  unfold structuredPass
  rw [listStep_image_id, detailsStep_image_id, captionStep_eq]
  dsimp only
  rw [providerStep_eq]

theorem structuredPass_image_size (c : Container) (m : Metadata) :
    (structuredPass c m).image_size =
      applyW (itemVals "image size" c.listItems)
        (applyW (detailVals "Image size:" c.detailsText) m.image_size) := by
  unfold structuredPass
  rw [listStep_image_size, detailsStep_image_size, captionStep_eq]
  dsimp only
  rw [providerStep_eq]

theorem structuredPass_photographer (c : Container) (m : Metadata) :
    (structuredPass c m).photographer =
      applyW (itemVals "photographer" c.listItems) m.photographer := by
  unfold structuredPass
  rw [listStep_photographer, detailsStep_photographer, captionStep_eq]
  dsimp only
  rw [providerStep_eq]

theorem structuredPass_location (c : Container) (m : Metadata) :
    (structuredPass c m).location =
      (applyWhere (detailVals "Where:" c.detailsText) (tripleOf m)).loc := by
  unfold structuredPass
  rw [(listStep_untouched _ _).2.2.2.2.2.2,
    show (detailsStep c.detailsText (captionStep c.captionText
        (providerStep c.providerText m))).location =
      (tripleOf (detailsStep c.detailsText (captionStep c.captionText
        (providerStep c.providerText m)))).loc from rfl,
    detailsStep_triple, captionStep_triple, providerStep_triple]

theorem structuredPass_city (c : Container) (m : Metadata) :
    (structuredPass c m).city =
      applyW (itemVals "city" c.listItems)
        (applyWhere (detailVals "Where:" c.detailsText) (tripleOf m)).city := by
  unfold structuredPass
  rw [listStep_city,
    show (detailsStep c.detailsText (captionStep c.captionText
        (providerStep c.providerText m))).city =
      (tripleOf (detailsStep c.detailsText (captionStep c.captionText
        (providerStep c.providerText m)))).city from rfl,
    detailsStep_triple, captionStep_triple, providerStep_triple]

theorem structuredPass_country (c : Container) (m : Metadata) :
    (structuredPass c m).country =
      applyW (itemVals "country" c.listItems)
        (applyWhere (detailVals "Where:" c.detailsText) (tripleOf m)).country := by
  unfold structuredPass
  rw [listStep_country,
    show (detailsStep c.detailsText (captionStep c.captionText
        (providerStep c.providerText m))).country =
      (tripleOf (detailsStep c.detailsText (captionStep c.captionText
        (providerStep c.providerText m)))).country from rfl,
    detailsStep_triple, captionStep_triple, providerStep_triple]

theorem structuredPass_tripleOf (c : Container) (m : Metadata) :
    tripleOf (structuredPass c m) =
      ⟨(applyWhere (detailVals "Where:" c.detailsText) (tripleOf m)).loc,
       applyW (itemVals "city" c.listItems)
         (applyWhere (detailVals "Where:" c.detailsText) (tripleOf m)).city,
       applyW (itemVals "country" c.listItems)
         (applyWhere (detailVals "Where:" c.detailsText) (tripleOf m)).country⟩ := by
  unfold tripleOf
  rw [structuredPass_location, structuredPass_city, structuredPass_country]
  rfl

theorem headingT_idem (o x : Option String) :
    headingT o (headingT o x) = headingT o x := by
  cases o with
  | none => rfl
  | some t =>
    unfold headingT
    dsimp only
    split_ifs <;> rfl

theorem pyOrStr_comp_idem (x : Option String) (y : String) :
    pyOrStr (pyOrStr x y) y = pyOrStr x y := by
  by_cases hx : truthy x = true
  · have h : pyOrStr x y = x := by unfold pyOrStr; rw [if_pos hx]
    rw [h, h]
  · have h : pyOrStr x y = some y := by unfold pyOrStr; rw [if_neg hx]
    rw [h]
    unfold pyOrStr
    by_cases hy : truthy (some y) = true
    · rw [if_pos hy]
    · rw [if_neg hy]

theorem orPost_idem (o x : Option String) : orPost o (orPost o x) = orPost o x := by
  unfold orPost
  split_ifs with h
  · exact pyOrStr_comp_idem x _
  · rfl

theorem subInChars_of_take {p l : List Char} (h : l.take p.length = p) :
    subInChars p l = true := by
  cases l with
  | nil =>
    have hp : p = [] := h.symm.trans (List.take_nil)
    subst hp
    rfl
  | cons c rest =>
    unfold subInChars
    rw [h]
    simp

theorem pyIn_refl (p : String) : pyIn p p = true := by
  unfold pyIn
  exact subInChars_of_take (List.take_length _)

theorem pyIn_prefix (p r : String) : pyIn p (p ++ r) = true := by
  unfold pyIn
  rw [toList_append]
  exact subInChars_of_take (List.take_left _ _)

theorem mergeCapFun_self (p : String) : mergeCapFun p (some p) = some p := by
  unfold mergeCapFun
  dsimp only
  by_cases hp : p = ""
  · rw [if_neg (by simp [hp])]
  · rw [if_pos hp, if_pos (pyIn_refl p)]

theorem mergeCapFun_keep {p c : String} (hc : c ≠ "") (hin : pyIn p c = true) :
    mergeCapFun p (some c) = some c := by
  unfold mergeCapFun
  dsimp only
  rw [if_pos hc, if_pos hin]

theorem string_append_assoc (a b c : String) : a ++ b ++ c = a ++ (b ++ c) := by
  apply string_toList_inj
  rw [toList_append, toList_append, toList_append, toList_append,
    List.append_assoc]

theorem mergeCapFun_idem (p : String) (x : Option String) :
    mergeCapFun p (mergeCapFun p x) = mergeCapFun p x := by
  cases x with
  | none => exact mergeCapFun_self p
  | some c =>
    by_cases hc : c = ""
    · subst hc
      rw [show mergeCapFun p (some "") = some p from by
        unfold mergeCapFun; dsimp only; rw [if_neg (by simp)]]
      exact mergeCapFun_self p
    · by_cases hin : pyIn p c = true
      · rw [mergeCapFun_keep hc hin, mergeCapFun_keep hc hin]
      · rw [show mergeCapFun p (some c) = some (p ++ " | " ++ c) from by
          unfold mergeCapFun; dsimp only; rw [if_pos hc, if_neg hin]]
        refine mergeCapFun_keep (append_ne_empty_right hc) ?_
        rw [string_append_assoc]
        exact pyIn_prefix p (" | " ++ c)

theorem capPost_idem (o x : Option String) : capPost o (capPost o x) = capPost o x := by
  unfold capPost
  split_ifs with h
  · exact mergeCapFun_idem _ x
  · rfl

theorem headingT_cap_idem (o p : Option String) (x : Option String) :
    capPost o (headingT p (capPost o (headingT p x))) = capPost o (headingT p x) := by
  cases p with
  | none => exact capPost_idem o x
  | some t =>
    by_cases h1 : t = ""
    · have hid : ∀ y, headingT (some t) y = y := fun y => by
        unfold headingT; dsimp only; rw [if_pos h1]
      rw [hid, hid]
      exact capPost_idem o x
    · by_cases h2 : pyStrip t = ""
      · have hid : ∀ y, headingT (some t) y = y := fun y => by
          unfold headingT; dsimp only; rw [if_neg h1, if_pos h2]
        rw [hid, hid]
        exact capPost_idem o x
      · have hconst : ∀ y, headingT (some t) y = some (pyStrip t) := fun y => by
          unfold headingT; dsimp only; rw [if_neg h1, if_neg h2]
        rw [hconst, hconst]

theorem triple_step_idem (ws cs ks : List String) (t : LocCK) :
    applyWhere ws ⟨(applyWhere ws t).loc, applyW cs (applyWhere ws t).city,
        applyW ks (applyWhere ws t).country⟩ =
      ⟨(applyWhere ws t).loc, applyW cs (applyWhere ws t).city,
        applyW ks (applyWhere ws t).country⟩ := by
  by_cases hl : truthy (applyWhere ws t).loc = true
  · exact applyWhere_truthy (show truthy ((⟨(applyWhere ws t).loc,
      applyW cs (applyWhere ws t).city, applyW ks (applyWhere ws t).country⟩ :
        LocCK)).loc = true from hl) ws
  · have hl' : truthy (applyWhere ws t).loc = false := by simpa using hl
    obtain ⟨hws, hloc⟩ := applyWhere_falsy hl'
    rw [applyWhere_allEmpty hws (show truthy ((⟨(applyWhere ws t).loc,
      applyW cs (applyWhere ws t).city, applyW ks (applyWhere ws t).country⟩ :
        LocCK)).loc = false from hl')]
    by_cases hn : ws = []
    · subst hn
      rfl
    · rw [if_neg hn]
      have hsome : (applyWhere ws t).loc = some "" := by
        rw [applyWhere_allEmpty hws hloc, if_neg hn]
      rw [hsome]

theorem metadata_ext {a b : Metadata}
    (h1 : a.caption = b.caption) (h2 : a.date = b.date) (h3 : a.credit = b.credit)
    (h4 : a.image_id = b.image_id) (h5 : a.image_size = b.image_size)
    (h6 : a.provider = b.provider) (h7 : a.location = b.location)
    (h8 : a.city = b.city) (h9 : a.country = b.country)
    (h10 : a.photographer = b.photographer) (h11 : a.featuring = b.featuring)
    (h12 : a.title = b.title) (h13 : a.subject = b.subject) : a = b := by
  cases a
  cases b
  dsimp at h1 h2 h3 h4 h5 h6 h7 h8 h9 h10 h11 h12 h13
  subst h1 h2 h3 h4 h5 h6 h7 h8 h9 h10 h11 h12 h13
  rfl

/-- C6. The structured extraction pass is idempotent: for every metadata
record and every structured container (provider heading, caption heading,
details-paragraph text and list items), running the structured pass a second
time on the same input leaves the record unchanged — in particular the
pipe-joined preface text is never concatenated into the caption a second
time, thanks to the `if preface_text not in existing` guard. -/
theorem structured_pass_idempotent (c : Container) (m : Metadata) :
    structuredPass c (structuredPass c m) = structuredPass c m := by
  apply metadata_ext
  · rw [structuredPass_caption, structuredPass_caption]
    exact headingT_cap_idem _ _ _
  · rw [structuredPass_date, structuredPass_date]
    exact applyW_idem _ _
  · rw [structuredPass_credit, structuredPass_credit]
    exact applyW_comp_idem _ _ _
  · rw [structuredPass_image_id, structuredPass_image_id]
    exact applyW_comp_idem _ _ _
  · rw [structuredPass_image_size, structuredPass_image_size]
    exact applyW_comp_idem _ _ _
  · rw [structuredPass_provider, structuredPass_provider]
    exact headingT_idem _ _
  · rw [structuredPass_location, structuredPass_tripleOf, triple_step_idem,
      structuredPass_location]
  · rw [structuredPass_city, structuredPass_tripleOf, triple_step_idem,
      structuredPass_city]
    exact applyW_idem _ _
  · rw [structuredPass_country, structuredPass_tripleOf, triple_step_idem,
      structuredPass_country]
    exact applyW_idem _ _
  · rw [structuredPass_photographer, structuredPass_photographer]
    exact applyW_idem _ _
  · rw [structuredPass_featuring, structuredPass_featuring]
    exact applyW_idem _ _
  · rw [structuredPass_title, structuredPass_title]
    exact orPost_idem _ _
  · rw [structuredPass_subject, structuredPass_subject]
    exact orPost_idem _ _

end SmartFrame
